import Mathlib

/-!
# DecryptionToolkeet web client: a verification development

A shallow embedding of `Website/static/js/script.js` (class `DecryptionToolkit`).

* JavaScript strings are lists of characters (`JsString`).
* JavaScript numbers are IEEE-754 binary64 values; a finite one is the rational
  it denotes, and a product is rounded to the nearest binary64 value, ties to even.
* The DOM parts the class touches are fields of `UI`; the two list containers
  hold DOM trees (`Node`).
* `innerHTML` is modelled by the HTML serialisation of a text node (`escapeHtml`)
  and by a fragment parser (`parseFragment`) for the markup subset the class
  writes; the parser answers `none` outside that subset.
* An `async` method is split at each `await`; the pieces are run by an event
  loop (`step`) with a clock, pending timers and in-flight requests.
-/

namespace DecryptionToolkit

/-- A JavaScript string, as its sequence of characters. -/
abbrev JsString := List Char

/-! ## Numbers -/

/-- Exponent of the unit in the last place of binary64 at `x`: 53 significant
bits, smallest exponent `-1074` (subnormal range). -/
def ulpExponent (x : ℚ) : ℤ := max (Int.log 2 |x| - 52) (-1074)

/-- Nearest integer, ties to the even one. -/
def roundHalfEven (y : ℚ) : ℤ :=
  if y - ⌊y⌋ < 1 / 2 then ⌊y⌋
  else if 1 / 2 < y - ⌊y⌋ then ⌊y⌋ + 1
  else if ⌊y⌋ % 2 = 0 then ⌊y⌋ else ⌊y⌋ + 1

/-- The binary64 value nearest to the real `x` (round to nearest, ties to even),
before the overflow test. -/
def roundToDouble (x : ℚ) : ℚ :=
  roundHalfEven (x / 2 ^ ulpExponent x) * 2 ^ ulpExponent x

/-- A JavaScript number other than NaN. The two zeros are identified: the
methods modelled here print both as `0`. -/
inductive JsNumber where
  | finite (q : ℚ)
  | posInf
  | negInf
deriving DecidableEq

/-- An integral JavaScript number, or an infinity: what `Math.round` returns on
a `JsNumber`. -/
inductive JsIntegral where
  | int (n : ℤ)
  | posInf
  | negInf
deriving DecidableEq

/-- The magnitude from which a rounded result overflows to an infinity. -/
def overflowBound : ℚ := 2 ^ 1024

/-- The JavaScript product `a * b` of two finite numbers. -/
def jsMul (a b : ℚ) : JsNumber :=
  if overflowBound ≤ roundToDouble (a * b) then .posInf
  else if overflowBound ≤ -roundToDouble (a * b) then .negInf
  else .finite (roundToDouble (a * b))

/-- `Math.round`: the nearest integer, a tie going towards positive infinity. -/
def mathRound : JsNumber → JsIntegral
  | .finite q => .int ⌊q + 1 / 2⌋
  | .posInf => .posInf
  | .negInf => .negInf

/-- The decimal digit character of `d % 10`. -/
def digitChar (d : Nat) : Char := Char.ofNat (48 + d % 10)

/-- Decimal digits of `n`, most significant first (`fuel` bounds the recursion). -/
def decimalDigitsAux : Nat → Nat → JsString
  | 0, _ => []
  | fuel + 1, n =>
    if n < 10 then [digitChar n] else decimalDigitsAux fuel (n / 10) ++ [digitChar n]

/-- Decimal digits of `n`, most significant first. -/
def decimalDigits (n : Nat) : JsString := decimalDigitsAux (n + 1) n

/-- `Number::toString`, step 5, for one digit count `k`, on an integral `x` of
`nd` decimal digits: an exponent `n` and a `k`-digit `s` with `s * 10 ^ (n - k)`
rounding to `x`, the nearest to `x` when there are two. The two values nearest
to `x` that `k` digits can write are `lo * p` below and `(lo + 1) * p` above,
`p = 10 ^ (nd - k)`; when `lo` is all nines the one above is the next power of
ten, whose digits are a one followed by zeros and whose exponent is `nd + 1`. -/
def digitCandidate (x nd k : Nat) : Option (Nat × Nat) :=
  let p := 10 ^ (nd - k)
  let lo := x / p
  let hi := lo + 1
  let okLo : Bool := roundToDouble ((lo * p : Nat) : ℚ) = (x : ℚ)
  let okHi : Bool := roundToDouble ((hi * p : Nat) : ℚ) = (x : ℚ)
  let below : Nat × Nat := (nd, lo)
  let above : Nat × Nat := if hi = 10 ^ k then (nd + 1, 10 ^ (k - 1)) else (nd, hi)
  if okLo && okHi then
    (if x - lo * p < hi * p - x then some below
     else if hi * p - x < x - lo * p then some above
     else if lo % 2 = 0 then some below else some above)
  else if okLo then some below
  else if okHi then some above
  else none

/-- `Number::toString`, step 5: the exponent `n`, the least digit count `k` and
the digits `s` that identify the integral number `x` of `nd` decimal digits. -/
def shortestDigits (x nd : Nat) : Nat × Nat × Nat :=
  ((List.range nd).findSome?
    (fun i => (digitCandidate x nd (i + 1)).map (fun ns => (ns.1, i + 1, ns.2)))).getD
    (nd, nd, x)

/-- `Number::toString` of a positive integral number: plain digits padded with
zeros while the exponent `n` is at most 21, exponent form beyond. -/
def positiveToString (x : Nat) : JsString :=
  let nks := shortestDigits x (decimalDigits x).length
  let ds := decimalDigits nks.2.2
  if nks.1 ≤ 21 then ds ++ List.replicate (nks.1 - nks.2.1) '0'
  else if nks.2.1 = 1 then ds ++ "e+".toList ++ decimalDigits (nks.1 - 1)
  else ds.take 1 ++ '.' :: ds.drop 1 ++ "e+".toList ++ decimalDigits (nks.1 - 1)

/-- `Number::toString` on integral numbers and infinities (what a template
literal does with the result of `Math.round`). -/
def JsIntegral.toJsString : JsIntegral → JsString
  | .int (Int.ofNat 0) => "0".toList
  | .int (Int.ofNat (n + 1)) => positiveToString (n + 1)
  | .int (Int.negSucc n) => '-' :: positiveToString (n + 1)
  | .posInf => "Infinity".toList
  | .negInf => "-Infinity".toList

/-- `const confidencePercentage = Math.round(x.confidence * 100)`. -/
def confidencePercentage (confidence : ℚ) : JsIntegral := mathRound (jsMul confidence 100)

/-! ## Whitespace and `String.prototype.trim` -/

/-- ECMAScript WhiteSpace and LineTerminator code points. -/
def isJsWhitespace (c : Char) : Bool :=
  let n := c.toNat
  n = 9 || n = 10 || n = 11 || n = 12 || n = 13 || n = 32 || n = 160 || n = 5760 ||
  (8192 ≤ n && n ≤ 8202) || n = 8232 || n = 8233 || n = 8239 || n = 8287 ||
  n = 12288 || n = 65279

/-- `String.prototype.trim`. -/
def trim (s : JsString) : JsString :=
  ((s.dropWhile isJsWhitespace).reverse.dropWhile isJsWhitespace).reverse

/-! ## HTML: serialisation of text, fragment parsing, DOM queries -/

/-- Line feed. -/
def LF : Char := Char.ofNat 10
/-- Carriage return. -/
def CR : Char := Char.ofNat 13
/-- The NUL character. -/
def NUL : Char := Char.ofNat 0
/-- No-break space. -/
def NBSP : Char := Char.ofNat 160
/-- The double quote. -/
def DQUOTE : Char := Char.ofNat 34

/-- HTML "escaping a string" (not in attribute mode) for one character. -/
def escapeChar (c : Char) : JsString :=
  if c = '&' then "&amp;".toList
  else if c = NBSP then "&nbsp;".toList
  else if c = '<' then "&lt;".toList
  else if c = '>' then "&gt;".toList
  else [c]

/-- `escapeHtml(text)`: `div.textContent = text; return div.innerHTML`, that is
the HTML serialisation of a single text node holding `text`. -/
def escapeHtml : JsString → JsString
  | [] => []
  | c :: rest => escapeChar c ++ escapeHtml rest

/-- A DOM node: a text node or an element with attributes and children. -/
inductive Node where
  | text (data : JsString)
  | elem (tag : JsString) (attrs : List (JsString × JsString)) (children : List Node)
deriving Repr

/-- Preprocessing of the parser input stream, with `prevCR` telling whether the
character just read was a CR: a CR becomes LF, and an LF right after a CR is
dropped. -/
def normalizeNewlinesFrom (prevCR : Bool) : JsString → JsString
  | [] => []
  | c :: rest =>
    if c = CR then LF :: normalizeNewlinesFrom true rest
    else if c = LF && prevCR then normalizeNewlinesFrom false rest
    else c :: normalizeNewlinesFrom false rest

/-- Preprocessing of the parser input stream: CR LF and lone CR become LF. -/
def normalizeNewlines (s : JsString) : JsString := normalizeNewlinesFrom false s

/-- Tokens of the HTML tokenizer. Character tokens are raw: character
references are resolved when text nodes are finished (`cookText`). -/
inductive Token where
  | char (c : Char)
  | startTag (name : JsString) (attrs : List (JsString × JsString))
  | endTag (name : JsString)
deriving Repr, DecidableEq

/-- Tokenizer states of the HTML standard that the modelled subset uses;
`unsupported` is entered on input outside the subset. -/
inductive Mode where
  | data | tagOpen | endTagOpen | tagName | beforeAttributeName | attributeName
  | beforeAttributeValue | attributeValueDoubleQuoted | afterAttributeValueQuoted
  | unsupported
deriving Repr, DecidableEq

/-- Tokenizer state: the mode and the tag token under construction. -/
structure Tokenizer where
  mode : Mode
  isEnd : Bool
  name : JsString
  attrs : List (JsString × JsString)
  attrName : JsString
  attrValue : JsString
deriving Repr, DecidableEq

/-- Tab, line feed, form feed, space. -/
def isHtmlSpace (c : Char) : Bool :=
  c.toNat = 9 || c.toNat = 10 || c.toNat = 12 || c.toNat = 32

/-- ASCII letter. -/
def isAsciiAlpha (c : Char) : Bool :=
  (65 ≤ c.toNat && c.toNat ≤ 90) || (97 ≤ c.toNat && c.toNat ≤ 122)

/-- ASCII lower-casing. -/
def asciiLower (c : Char) : Char :=
  if 65 ≤ c.toNat && c.toNat ≤ 90 then Char.ofNat (c.toNat + 32) else c

/-- The tokenizer at the start of the input. -/
def Tokenizer.start : Tokenizer := ⟨.data, false, [], [], [], []⟩

/-- The tokenizer after an unsupported input character. -/
def Tokenizer.fail : Tokenizer := ⟨.unsupported, false, [], [], [], []⟩

/-- The tag token under construction, emitted. -/
def Tokenizer.tagToken (t : Tokenizer) : Token :=
  if t.isEnd then .endTag t.name else .startTag t.name t.attrs

/-- The attribute under construction added to the tag (a repeated name is dropped). -/
def Tokenizer.closeAttr (t : Tokenizer) : List (JsString × JsString) :=
  if t.attrs.any (fun a => a.1 = t.attrName) then t.attrs
  else t.attrs ++ [(t.attrName, t.attrValue)]

/-- One tokenizer step: the next state and the tokens emitted. -/
def tokenStep (t : Tokenizer) (c : Char) : Tokenizer × List Token :=
  match t.mode with
  | .data =>
    if c = '<' then ({ t with mode := .tagOpen }, []) else (t, [.char c])
  | .tagOpen =>
    if c = '/' then ({ t with mode := .endTagOpen }, [])
    else if isAsciiAlpha c then
      (⟨.tagName, false, [asciiLower c], [], [], []⟩, [])
    else if c = '!' || c = '?' then (Tokenizer.fail, [])
    else if c = '<' then ({ t with mode := .tagOpen }, [.char '<'])
    else ({ t with mode := .data }, [.char '<', .char c])
  | .endTagOpen =>
    if isAsciiAlpha c then (⟨.tagName, true, [asciiLower c], [], [], []⟩, [])
    else (Tokenizer.fail, [])
  | .tagName =>
    if isHtmlSpace c then ({ t with mode := .beforeAttributeName }, [])
    else if c = '>' then (Tokenizer.start, [t.tagToken])
    else if c = '/' || c = NUL then (Tokenizer.fail, [])
    else ({ t with name := t.name ++ [asciiLower c] }, [])
  | .beforeAttributeName =>
    if isHtmlSpace c then (t, [])
    else if c = '>' then (Tokenizer.start, [t.tagToken])
    else if c = '/' || c = '=' || c = NUL || c = DQUOTE || c = '<' || c.toNat = 39 then
      (Tokenizer.fail, [])
    else ({ t with mode := .attributeName, attrName := [asciiLower c], attrValue := [] }, [])
  | .attributeName =>
    if c = '=' then ({ t with mode := .beforeAttributeValue }, [])
    else if c = '>' then (Tokenizer.start, [{ t with attrs := t.closeAttr }.tagToken])
    else if isHtmlSpace c || c = '/' || c = NUL || c = DQUOTE || c = '<' || c.toNat = 39 then
      (Tokenizer.fail, [])
    else ({ t with attrName := t.attrName ++ [asciiLower c] }, [])
  | .beforeAttributeValue =>
    if isHtmlSpace c then (t, [])
    else if c = DQUOTE then ({ t with mode := .attributeValueDoubleQuoted }, [])
    else (Tokenizer.fail, [])
  | .attributeValueDoubleQuoted =>
    if c = DQUOTE then
      ({ t with mode := .afterAttributeValueQuoted, attrs := t.closeAttr }, [])
    else if c = '&' || c = NUL then (Tokenizer.fail, [])
    else ({ t with attrValue := t.attrValue ++ [c] }, [])
  | .afterAttributeValueQuoted =>
    if isHtmlSpace c then ({ t with mode := .beforeAttributeName }, [])
    else if c = '>' then (Tokenizer.start, [t.tagToken])
    else (Tokenizer.fail, [])
  | .unsupported => (t, [])

/-- The tokenizer run over an input: final state and all tokens emitted. -/
def tokenize : Tokenizer → JsString → Tokenizer × List Token
  | t, [] => (t, [])
  | t, c :: rest =>
    ((tokenize (tokenStep t c).1 rest).1, (tokenStep t c).2 ++ (tokenize (tokenStep t c).1 rest).2)

/-- An open element during tree construction; `kidsRev` holds the children
inserted so far, last first. -/
structure Frame where
  tag : JsString
  attrs : List (JsString × JsString)
  kidsRev : List Node

/-- A character inserted at the current node: appended to a trailing text node,
or a new text node. -/
def insertChar (c : Char) : List Node → List Node
  | .text d :: rest => .text (d ++ [c]) :: rest
  | kids => .text [c] :: kids

/-- Tag names whose start tag the "in body" rules modelled here can insert. -/
def supportedTags : List JsString :=
  ["div".toList, "p".toList, "h4".toList, "span".toList, "button".toList]

/-- One tree-construction step in the "in body" insertion mode. A start tag is
inserted only where no open `p`, `button` or heading has to be closed first and
no formatting element reopened; an end tag must close the current node.
Everything else is outside the modelled subset (`none`). -/
def treeStep (stack : List Frame) (tok : Token) : Option (List Frame) :=
  match tok, stack with
  | .char c, f :: below => some ({ f with kidsRev := insertChar c f.kidsRev } :: below)
  | .startTag name attrs, f :: below =>
    if supportedTags.contains name &&
        !(f :: below).any (fun g => g.tag = "p".toList || g.tag = "button".toList ||
          g.tag = "h4".toList) then
      some (⟨name, attrs, []⟩ :: f :: below)
    else none
  | .endTag name, f :: parent :: below =>
    if f.tag = name then
      some ({ parent with
        kidsRev := .elem f.tag f.attrs f.kidsRev.reverse :: parent.kidsRev } :: below)
    else none
  | _, _ => none

/-- Tree construction over a token list. -/
def buildTree : List Frame → List Token → Option (List Frame)
  | stack, [] => some stack
  | stack, tok :: rest => (treeStep stack tok).bind (fun st => buildTree st rest)

/-- Character references of a text run resolved. Only the four named
references that the serialiser emits are modelled; any other ampersand is
outside the subset. -/
def decodeCharRefs : JsString → Option JsString
  | [] => some []
  | c :: rest =>
    if c = '&' then
      match rest with
      | 'a' :: 'm' :: 'p' :: ';' :: r => (decodeCharRefs r).map (fun t => '&' :: t)
      | 'l' :: 't' :: ';' :: r => (decodeCharRefs r).map (fun t => '<' :: t)
      | 'g' :: 't' :: ';' :: r => (decodeCharRefs r).map (fun t => '>' :: t)
      | 'n' :: 'b' :: 's' :: 'p' :: ';' :: r => (decodeCharRefs r).map (fun t => NBSP :: t)
      | _ => none
    else (decodeCharRefs rest).map (fun t => c :: t)

/-- The data of a text node from its raw characters: references resolved, then
NUL characters ignored. -/
def cookText (raw : JsString) : Option JsString :=
  (decodeCharRefs raw).map (fun t => t.filter (fun c => c != NUL))

mutual
/-- A raw tree with its text finished; a text node left empty disappears. -/
def cookNode : Node → Option (List Node)
  | .text raw => (cookText raw).map (fun t => if t = [] then [] else [.text t])
  | .elem tag attrs cs => (cookNodes cs).map (fun cs2 => [.elem tag attrs cs2])
/-- The list version of `cookNode`. -/
def cookNodes : List Node → Option (List Node)
  | [] => some []
  | n :: ns => (cookNode n).bind (fun a => (cookNodes ns).map (fun b => a ++ b))
end

/-- The children that `element.innerHTML = markup` produces, for an element
parsed in the "in body" mode; `none` when the markup leaves the modelled subset. -/
def parseFragment (markup : JsString) : Option (List Node) :=
  let r := tokenize Tokenizer.start (normalizeNewlines markup)
  if r.1.mode = .data then
    match buildTree [⟨[], [], []⟩] r.2 with
    | some [root] => cookNodes root.kidsRev.reverse
    | _ => none
  else none

/-- The children after `element.innerHTML = markup`. The default is never
used on markup written by this program (see `parseFragment_createResultItem`
and its siblings). -/
def setInnerHTML (markup : JsString) : List Node := (parseFragment markup).getD []

/-- The words of a whitespace-separated attribute value. -/
def splitWords (v : JsString) : List JsString :=
  (v.foldr (fun c acc =>
    if isHtmlSpace c || c = CR then [] :: acc
    else match acc with
      | w :: r => (c :: w) :: r
      | [] => [[c]]) [[]]).filter (fun w => w != [])

/-- The value of an attribute, if present. -/
def getAttr (attrs : List (JsString × JsString)) (name : JsString) : Option JsString :=
  (attrs.find? (fun a => a.1 = name)).map (fun a => a.2)

/-- Whether an element with these attributes matches the class selector `.cls`. -/
def hasClass (attrs : List (JsString × JsString)) (cls : JsString) : Bool :=
  match getAttr attrs "class".toList with
  | some v => (splitWords v).contains cls
  | none => false

mutual
/-- `node.textContent`. -/
def Node.textContent : Node → JsString
  | .text d => d
  | .elem _ _ cs => textContentOf cs
/-- Concatenated text content of a node list. -/
def textContentOf : List Node → JsString
  | [] => []
  | n :: ns => n.textContent ++ textContentOf ns
end

mutual
/-- The elements matching `.cls` among a node and its descendants, in document order. -/
def Node.selectAll (cls : JsString) : Node → List Node
  | .text _ => []
  | .elem tag attrs cs =>
    (if hasClass attrs cls then [Node.elem tag attrs cs] else []) ++ selectAllIn cls cs
/-- `querySelectorAll('.cls')` over the subtrees rooted at the given nodes. -/
def selectAllIn (cls : JsString) : List Node → List Node
  | [] => []
  | n :: ns => n.selectAll cls ++ selectAllIn cls ns
end

/-- `element.querySelectorAll('.cls')`: matching descendants. -/
def Node.querySelectorAll (n : Node) (cls : JsString) : List Node :=
  match n with
  | .text _ => []
  | .elem _ _ cs => selectAllIn cls cs

/-- `element.querySelector('.cls')`: the first matching descendant. -/
def Node.querySelector (n : Node) (cls : JsString) : Option Node :=
  (n.querySelectorAll cls).head?

mutual
/-- The element structure of a node: text nodes removed, elements kept with
their tag, attributes and nesting. -/
def Node.skeleton : Node → List Node
  | .text _ => []
  | .elem tag attrs cs => [.elem tag attrs (skeletonOf cs)]
/-- The list version of `Node.skeleton`. -/
def skeletonOf : List Node → List Node
  | [] => []
  | n :: ns => n.skeleton ++ skeletonOf ns
end

/-! ## Data model of the backend responses -/

/-- One candidate encoding of an analyze response. The confidence is a finite
number (the rational a binary64 value denotes). -/
structure Detection where
  name : JsString
  description : JsString
  confidence : ℚ

/-- One decoder attempt of a decode response. The fields `result` and `error`
are read only when `success` is true, respectively false. -/
structure DecodeOutcome where
  decoder : JsString
  success : Bool
  confidence : ℚ
  result : JsString
  error : JsString

/-- The `analysis` object of an analyze response. The two numbers are carried
as the text that assigning them to `textContent` displays. -/
structure AnalysisReport where
  length : JsString
  characters : List JsString
  entropy : JsString
  patterns : List JsString

/-- A JSON value as `data.error || fallback` and `new Error(...)` look at it:
through `ToBoolean` and `ToString`. The text of a number and of an array is
carried with the value (`Number::toString` of the number; the elements joined
by commas). -/
inductive JsonValue where
  | null
  | bool (b : Bool)
  | number (isZero : Bool) (shown : JsString)
  | string (s : JsString)
  | array (shown : JsString)
  | object

/-- `ToBoolean` of a JSON value: `null`, `false`, zero and the empty string are
falsy. -/
def JsonValue.truthy : JsonValue → Bool
  | .null => false
  | .bool b => b
  | .number isZero _ => !isZero
  | .string s => !s.isEmpty
  | .array _ => true
  | .object => true

/-- `ToString` of a JSON value. -/
def JsonValue.toJsString : JsonValue → JsString
  | .null => "null".toList
  | .bool b => if b then "true".toList else "false".toList
  | .number _ shown => shown
  | .string s => s
  | .array shown => shown
  | .object => "[object Object]".toList

/-- A parsed JSON body other than `null`, seen through the properties the
client reads. `error` is missing (`none`) or holds any JSON value; each of the
other three is present with the expected type (`some`) or missing (`none`). A
body that is a string, a number, a boolean or an array has none of the four. -/
structure Body where
  error : Option JsonValue
  analysis : Option AnalysisReport
  detections : Option (List Detection)
  results : Option (List DecodeOutcome)

/-- How a `fetch` followed by `response.json()` can end. -/
inductive FetchOutcome where
  /-- The `fetch` promise rejects (transport failure) with this message. -/
  | networkError (message : JsString)
  /-- A response arrives but its body is not JSON (empty, HTML, truncated):
  `response.json()` rejects with a SyntaxError of this message. -/
  | invalidJson (status : Nat) (message : JsString)
  /-- A response arrives whose body is the JSON text `null`. -/
  | jsonNull (status : Nat)
  /-- A response arrives whose body is a JSON value other than `null`. -/
  | json (status : Nat) (body : Body)

/-- `response.ok`: the status is in the range 200 to 299. -/
def responseOk (status : Nat) : Bool := 200 ≤ status && status ≤ 299

/-! ## The page state -/

/-- The state of the DOM elements the controller holds. A `...Hidden` flag
tells whether the element has the class `hidden`. -/
structure UI where
  inputValue : JsString
  decoderValue : JsString
  thresholdValue : JsString
  loadingHidden : Bool
  analyzeDisabled : Bool
  decodeDisabled : Bool
  analysisHidden : Bool
  resultsHidden : Bool
  errorHidden : Bool
  errorText : JsString
  analysisLength : JsString
  analysisCharset : JsString
  analysisEntropy : JsString
  analysisPatterns : JsString
  detectionsList : List Node
  resultsList : List Node

/-- The two kinds of operation. -/
inductive OpKind where
  | analyze
  | decode
deriving DecidableEq, Repr

/-- What a pending timer runs. -/
inductive Callback where
  /-- The callback of `showError`: `this.hideError()`. -/
  | hideError
  /-- The `resolve` of the one-second delay of operation `op`, started at
  `startedAt`, with the trimmed text it captured. -/
  | resume (kind : OpKind) (op : Nat) (startedAt : Nat) (text : JsString)

/-- A pending `setTimeout`. -/
structure Timer where
  due : Nat
  callback : Callback

/-- A request handed to `fetch`: the fields of the JSON body before
serialisation (`threshold` is the slider text, before `parseFloat`), and the
operation it belongs to. -/
structure Request where
  kind : OpKind
  op : Nat
  startedAt : Nat
  issuedAt : Nat
  text : JsString
  forceDecoder : Option JsString
  threshold : JsString

/-- The page with its event loop: clock (ms), DOM state, pending timers,
requests awaiting their response, the log of all requests issued, and the
number of operations started so far. -/
structure Sys where
  now : Nat
  ui : UI
  timers : List Timer
  inflight : List Request
  requests : List Request
  nextOp : Nat

/-! ## The methods of `DecryptionToolkit` -/

/-- `showLoading()`. -/
def showLoading (ui : UI) : UI :=
  { ui with loadingHidden := false, analyzeDisabled := true, decodeDisabled := true }

/-- `hideLoading()`. -/
def hideLoading (ui : UI) : UI :=
  { ui with loadingHidden := true, analyzeDisabled := false, decodeDisabled := false }

/-- `showAnalysis()`. -/
def showAnalysis (ui : UI) : UI :=
  { ui with analysisHidden := false, resultsHidden := true }

/-- `showResults()`. -/
def showResults (ui : UI) : UI :=
  { ui with resultsHidden := false, analysisHidden := true }

/-- `hideError()`. -/
def hideError (ui : UI) : UI := { ui with errorHidden := true }

/-- `showError(message)`: sets the text, shows the banner, and registers a
5000 ms timer that hides it. -/
def showError (s : Sys) (message : JsString) : Sys :=
  { s with
    ui := { s.ui with errorText := message, errorHidden := false }
    timers := s.timers ++ [⟨s.now + 5000, .hideError⟩] }

/-- The markup that `createDetectionItem` assigns to `item.innerHTML`. -/
def detectionMarkup (detection : Detection) : JsString :=
  "\n            <div class=\"detection-info\">\n                <h4>".toList ++
  escapeHtml detection.name ++
  "</h4>\n                <p>".toList ++
  escapeHtml detection.description ++
  "</p>\n            </div>\n            <span class=\"confidence-badge\">".toList ++
  (confidencePercentage detection.confidence).toJsString ++
  "%</span>\n        ".toList

/-- `createDetectionItem(detection)`. -/
def createDetectionItem (detection : Detection) : Node :=
  .elem "div".toList [("class".toList, "detection-item".toList)]
    (setInnerHTML (detectionMarkup detection))

/-- The markup that `createResultItem` assigns to `item.innerHTML`. -/
def resultMarkup (result : DecodeOutcome) (index : Nat) : JsString :=
  if result.success then
    "\n                <div class=\"result-header\">\n                    <span class=\"result-decoder\">".toList ++
    escapeHtml result.decoder ++
    "</span>\n                    <span class=\"result-confidence\">".toList ++
    (confidencePercentage result.confidence).toJsString ++
    "%</span>\n                </div>\n                <div class=\"result-content\">\n                    <div class=\"result-text\">".toList ++
    escapeHtml result.result ++
    "</div>\n                    <button class=\"btn btn-secondary copy-btn\" onclick=\"app.copyResult(".toList ++
    decimalDigits index ++
    ")\">\n                        Copy\n                    </button>\n                </div>\n            ".toList
  else
    "\n                <div class=\"result-header\">\n                    <span class=\"result-decoder\">".toList ++
    escapeHtml result.decoder ++
    "</span>\n                    <span class=\"result-confidence error\">".toList ++
    (confidencePercentage result.confidence).toJsString ++
    "%</span>\n                </div>\n                <div class=\"result-content\">\n                    <div class=\"result-error\">Error: ".toList ++
    escapeHtml result.error ++
    "</div>\n                </div>\n            ".toList

/-- `createResultItem(result, index)`. The index is an array index, below
`2 ^ 32`, which a template literal prints as its plain decimal digits. -/
def createResultItem (result : DecodeOutcome) (index : Nat) : Node :=
  .elem "div".toList
    [("class".toList, "result-item ".toList ++ (if result.success then [] else "error".toList))]
    (setInnerHTML (resultMarkup result index))

/-- `results.forEach((result, index) => ...)` of `displayResults`: the items
appended, the first being created with index `start`. -/
def resultItemsFrom : Nat → List DecodeOutcome → List Node
  | _, [] => []
  | start, r :: rest => createResultItem r start :: resultItemsFrom (start + 1) rest

/-- `Array.prototype.join(', ')` on strings. -/
def joinComma : List JsString → JsString
  | [] => []
  | [a] => a
  | a :: b :: rest => a ++ ", ".toList ++ joinComma (b :: rest)

/-- `x || 'None'` on strings. -/
def orNone (x : JsString) : JsString := if x = [] then "None".toList else x

/-- The message of the TypeError raised by reading the property `prop` of
`undefined` (wording of V8; other engines word it differently). -/
def typeErrorMessage (prop : JsString) : JsString :=
  "Cannot read properties of undefined (reading \x27".toList ++ prop ++ "\x27)".toList

/-- The message of the TypeError raised by reading the property `prop` of
`null` (wording of V8). -/
def nullTypeErrorMessage (prop : JsString) : JsString :=
  "Cannot read properties of null (reading \x27".toList ++ prop ++ "\x27)".toList

/-- The message of the TypeError raised by the destructuring of `data` at the
head of `displayAnalysis` when `data` is `null` (wording of V8). -/
def nullDestructureMessage : JsString :=
  "Cannot destructure property \x27analysis\x27 of \x27data\x27 as it is null.".toList

/-- The placeholder that `displayAnalysis` writes for an empty detection list. -/
def noDetectionsMarkup : JsString :=
  "<p class=\"text-muted\">No encodings detected above threshold</p>".toList

/-- The placeholder that `displayResults` writes for an empty result list. -/
def noResultsMarkup : JsString := "<p class=\"text-muted\">No results found</p>".toList

/-- `displayAnalysis(data)`: the page afterwards, and the message of the
exception if one is thrown on the way. -/
def displayAnalysis (ui : UI) (data : Body) : UI × Option JsString :=
  match data.analysis with
  | none => (ui, some (typeErrorMessage "length".toList))
  | some analysis =>
    let ui1 : UI := { ui with
      analysisLength := analysis.length
      analysisCharset := orNone (joinComma analysis.characters)
      analysisEntropy := analysis.entropy
      analysisPatterns := orNone (joinComma analysis.patterns)
      detectionsList := setInnerHTML [] }
    match data.detections with
    | none => (ui1, some (typeErrorMessage "length".toList))
    | some detections =>
      let ui2 : UI :=
        if detections.length = 0 then
          { ui1 with detectionsList := setInnerHTML noDetectionsMarkup }
        else
          { ui1 with detectionsList := ui1.detectionsList ++ detections.map createDetectionItem }
      (showAnalysis ui2, none)

/-- `displayResults(results)`, called with `data.results`: the page
afterwards, and the message of the exception if one is thrown on the way. -/
def displayResults (ui : UI) (results : Option (List DecodeOutcome)) : UI × Option JsString :=
  let ui1 : UI := { ui with resultsList := setInnerHTML [] }
  match results with
  | none => (ui1, some (typeErrorMessage "length".toList))
  | some results =>
    let ui2 : UI :=
      if results.length = 0 then
        { ui1 with resultsList := setInnerHTML noResultsMarkup }
      else
        { ui1 with resultsList := ui1.resultsList ++ resultItemsFrom 0 results }
    (showResults ui2, none)

/-! ## Definitions used in the proofs about the parser -/

/-- Characters inserted one after the other at the current node. -/
def insertChars (cs : JsString) (kids : List Node) : List Node :=
  cs.foldl (fun k c => insertChar c k) kids

/-- State of the parser between two input characters: newline preprocessing,
tokenizer, stack of open elements. -/
structure PState where
  prevCR : Bool
  tok : Tokenizer
  stack : List Frame

/-- A preprocessed character run through tokenizer and tree construction. -/
def PState.feed (s : PState) (prevCR : Bool) (c : Char) : Option PState :=
  (buildTree s.stack (tokenStep s.tok c).2).map (fun st => ⟨prevCR, (tokenStep s.tok c).1, st⟩)

/-- One input character through the three stages of the parser. -/
def PState.step (s : PState) (c : Char) : Option PState :=
  if c = CR then s.feed true LF
  else if c = LF && s.prevCR then some { s with prevCR := false }
  else s.feed false c

/-- The three stages of the parser run in lockstep over an input. -/
def PState.run : PState → JsString → Option PState
  | s, [] => some s
  | s, c :: rest => (s.step c).bind (fun s2 => s2.run rest)

/-- The end of the input: the tokenizer must be in the data state and every
element closed; the text nodes are then finished. -/
def PState.finish (s : PState) : Option (List Node) :=
  if s.tok.mode = .data then
    match s.stack with
    | [root] => cookNodes root.kidsRev.reverse
    | _ => none
  else none

/-- Markup is read from this state. -/
def PState.init : PState := ⟨false, Tokenizer.start, [⟨[], [], []⟩]⟩

/-- Whether the input read so far ends with a CR. -/
def endsCR (b : Bool) : JsString → Bool
  | [] => b
  | c :: rest => endsCR (c = CR) rest

/-- A line feed followed by `n` spaces. -/
def indent (n : Nat) : JsString := LF :: List.replicate n ' '

/-- Characters that pass unchanged through newline preprocessing, the data
state, a double-quoted attribute value and text finishing. -/
def isPlain (c : Char) : Bool :=
  c != '<' && c != '&' && c != CR && c != LF && c != NUL && c != DQUOTE

/-- The children that a text of data `t` contributes: none when `t` is empty. -/
def textNodes (t : JsString) : List Node := if t = [] then [] else [.text t]

/-- The text that parsing the serialisation of `s` gives back: newlines
normalised, NUL characters dropped. -/
def domText (s : JsString) : JsString := (normalizeNewlines s).filter (fun c => c != NUL)

/-- Whether the last child inserted is a text node. -/
def endsWithText : List Node → Bool
  | .text _ :: _ => true
  | _ => false

/-- The children of a detection item. -/
def detectionChildren (d : Detection) : List Node :=
  [ .text (indent 12),
    .elem "div".toList [("class".toList, "detection-info".toList)]
      [ .text (indent 16),
        .elem "h4".toList [] (textNodes (domText d.name)),
        .text (indent 16),
        .elem "p".toList [] (textNodes (domText d.description)),
        .text (indent 12) ],
    .text (indent 12),
    .elem "span".toList [("class".toList, "confidence-badge".toList)]
      [ .text ((confidencePercentage d.confidence).toJsString ++ "%".toList) ],
    .text (indent 8) ]

/-- The children of a result item. -/
def resultChildren (r : DecodeOutcome) (index : Nat) : List Node :=
  if r.success then
    [ .text (indent 16),
      .elem "div".toList [("class".toList, "result-header".toList)]
        [ .text (indent 20),
          .elem "span".toList [("class".toList, "result-decoder".toList)]
            (textNodes (domText r.decoder)),
          .text (indent 20),
          .elem "span".toList [("class".toList, "result-confidence".toList)]
            [ .text ((confidencePercentage r.confidence).toJsString ++ "%".toList) ],
          .text (indent 16) ],
      .text (indent 16),
      .elem "div".toList [("class".toList, "result-content".toList)]
        [ .text (indent 20),
          .elem "div".toList [("class".toList, "result-text".toList)]
            (textNodes (domText r.result)),
          .text (indent 20),
          .elem "button".toList
            [ ("class".toList, "btn btn-secondary copy-btn".toList),
              ("onclick".toList, "app.copyResult(".toList ++ decimalDigits index ++ ")".toList) ]
            [ .text "\n                        Copy\n                    ".toList ],
          .text (indent 16) ],
      .text (indent 12) ]
  else
    [ .text (indent 16),
      .elem "div".toList [("class".toList, "result-header".toList)]
        [ .text (indent 20),
          .elem "span".toList [("class".toList, "result-decoder".toList)]
            (textNodes (domText r.decoder)),
          .text (indent 20),
          .elem "span".toList [("class".toList, "result-confidence error".toList)]
            [ .text ((confidencePercentage r.confidence).toJsString ++ "%".toList) ],
          .text (indent 16) ],
      .text (indent 16),
      .elem "div".toList [("class".toList, "result-content".toList)]
        [ .text (indent 20),
          .elem "div".toList [("class".toList, "result-error".toList)]
            [ .text ("Error: ".toList ++ domText r.error) ],
          .text (indent 16) ],
      .text (indent 12) ]

/-- The label of the copy button with its surrounding whitespace. -/
def copyLabel : JsString := "\n                        Copy\n                    ".toList

/-- `analyzeText()` up to its first `await`: validation, then the loading
state and the one-second timer whose callback resumes the method. -/
def analyzeText (s : Sys) : Sys :=
  let text := trim s.ui.inputValue
  if text = [] then showError s "Please enter some text to analyze.".toList
  else
    { s with
      ui := hideError (showLoading s.ui)
      timers := s.timers ++ [⟨s.now + 1000, .resume .analyze s.nextOp s.now text⟩]
      nextOp := s.nextOp + 1 }

/-- `decodeText()` up to its first `await`. -/
def decodeText (s : Sys) : Sys :=
  let text := trim s.ui.inputValue
  if text = [] then showError s "Please enter some text to decode.".toList
  else
    { s with
      ui := hideError (showLoading s.ui)
      timers := s.timers ++ [⟨s.now + 1000, .resume .decode s.nextOp s.now text⟩]
      nextOp := s.nextOp + 1 }

/-- The operation resumed after its delay: the call of `fetch`. For `decode`,
`forceDecoder` is `this.decoderSelect.value || null`. -/
def issueRequest (s : Sys) (kind : OpKind) (op startedAt : Nat) (text : JsString) : Sys :=
  let request : Request :=
    { kind := kind
      op := op
      startedAt := startedAt
      issuedAt := s.now
      text := text
      forceDecoder :=
        match kind with
        | .analyze => none
        | .decode => if s.ui.decoderValue = [] then none else some s.ui.decoderValue
      threshold := s.ui.thresholdValue }
  { s with inflight := s.inflight ++ [request], requests := s.requests ++ [request] }

/-- The message of `new Error(data.error || fallback)`, thrown for a response
that is not ok: the fallback when `data.error` is missing or falsy, `ToString`
of it otherwise. -/
def errorOr (error : Option JsonValue) (fallback : JsString) : JsString :=
  match error with
  | some e => if e.truthy then e.toJsString else fallback
  | none => fallback

/-- The rest of the `try` block of `analyzeText` once the request has ended:
the page afterwards, and the message of the exception thrown, if any. -/
def analyzeTry (ui : UI) : FetchOutcome → UI × Option JsString
  | .networkError message => (ui, some message)
  | .invalidJson _ message => (ui, some message)
  | .jsonNull status =>
    if !responseOk status then (ui, some (nullTypeErrorMessage "error".toList))
    else (ui, some nullDestructureMessage)
  | .json status data =>
    if !responseOk status then (ui, some (errorOr data.error "Analysis failed.".toList))
    else displayAnalysis ui data

/-- The rest of the `try` block of `decodeText` once the request has ended. -/
def decodeTry (ui : UI) : FetchOutcome → UI × Option JsString
  | .networkError message => (ui, some message)
  | .invalidJson _ message => (ui, some message)
  | .jsonNull status =>
    if !responseOk status then (ui, some (nullTypeErrorMessage "error".toList))
    else (ui, some (nullTypeErrorMessage "results".toList))
  | .json status data =>
    if !responseOk status then (ui, some (errorOr data.error "Decoding failed.".toList))
    else displayResults ui data.results

/-- The operation resumed when its request has ended: the rest of `try`, then
`catch` (`showError` with the prefixed message), then `finally`
(`hideLoading`). -/
def finishRequest (s : Sys) (kind : OpKind) (outcome : FetchOutcome) : Sys :=
  let r := match kind with
    | .analyze => analyzeTry s.ui outcome
    | .decode => decodeTry s.ui outcome
  let handled : Sys :=
    match r.2 with
    | some message =>
      showError { s with ui := r.1 }
        ((match kind with
          | .analyze => "Analysis failed: ".toList
          | .decode => "Decoding failed: ".toList) ++ message)
    | none => { s with ui := r.1 }
  { handled with ui := hideLoading handled.ui }

/-- A timer callback run. -/
def runCallback (s : Sys) : Callback → Sys
  | .hideError => { s with ui := hideError s.ui }
  | .resume kind op startedAt text => issueRequest s kind op startedAt text

/-- What can happen next on the page. -/
inductive Event where
  /-- Time passes. -/
  | advance (ms : Nat)
  /-- The user edits the text area. -/
  | input (value : JsString)
  /-- The user picks a decoder. -/
  | selectDecoder (value : JsString)
  /-- The user moves the threshold slider. -/
  | slide (value : JsString)
  /-- A click on the analyze button; a disabled button receives none. -/
  | clickAnalyze
  /-- A click on the decode button; a disabled button receives none. -/
  | clickDecode
  /-- Ctrl+Enter in the text area. -/
  | ctrlEnter
  /-- The pending timer at position `i` fires; it must be due. -/
  | timer (i : Nat)
  /-- The request at position `i` of the in-flight list ends. -/
  | response (i : Nat) (outcome : FetchOutcome)

/-- One step of the event loop with the handlers of `bindEvents`; `none` when
the event cannot happen in this state. -/
def step (s : Sys) : Event → Option Sys
  | .advance ms => some { s with now := s.now + ms }
  | .input value => some { s with ui := { s.ui with inputValue := value } }
  | .selectDecoder value => some { s with ui := { s.ui with decoderValue := value } }
  | .slide value => some { s with ui := { s.ui with thresholdValue := value } }
  | .clickAnalyze => if s.ui.analyzeDisabled then none else some (analyzeText s)
  | .clickDecode => if s.ui.decodeDisabled then none else some (decodeText s)
  | .ctrlEnter => some (decodeText s)
  | .timer i =>
    match s.timers[i]? with
    | some t =>
      if t.due ≤ s.now then some (runCallback { s with timers := s.timers.eraseIdx i } t.callback)
      else none
    | none => none
  | .response i outcome =>
    match s.inflight[i]? with
    | some request =>
      some (finishRequest { s with inflight := s.inflight.eraseIdx i } request.kind outcome)
    | none => none

/-- A schedule run from a state. -/
def runSchedule : Sys → List Event → Option Sys
  | s, [] => some s
  | s, e :: rest => (step s e).bind (fun s2 => runSchedule s2 rest)

/-- The page at load time showing `ui`: no timer, no request. -/
def Sys.initial (ui : UI) : Sys := ⟨0, ui, [], [], [], 0⟩

/-- A page with everything hidden, both buttons enabled and the given input. -/
def UI.idle (input : JsString) : UI :=
  { inputValue := input, decoderValue := [], thresholdValue := "0.5".toList
    loadingHidden := true, analyzeDisabled := false, decodeDisabled := false
    analysisHidden := true, resultsHidden := true, errorHidden := true, errorText := []
    analysisLength := [], analysisCharset := [], analysisEntropy := [], analysisPatterns := []
    detectionsList := [], resultsList := [] }

/-- Whether the event is the end of a request. -/
def Event.isResponse : Event → Bool
  | .response _ _ => true
  | _ => false

/-- Whether the timer resumes operation `op`. -/
def Timer.resumes (op : Nat) (t : Timer) : Bool :=
  match t.callback with
  | .resume _ k _ _ => k = op
  | .hideError => false

/-- The number of pending delays of operation `op`. -/
def pendingDelays (s : Sys) (op : Nat) : Nat := s.timers.countP (Timer.resumes op)

/-- The number of requests issued so far by operation `op`. -/
def requestsOf (s : Sys) (op : Nat) : Nat := s.requests.countP (fun r => r.op = op)

/-- What `copyResult(index)` does up to its `await`. -/
inductive CopyStep where
  /-- `resultItems[index]` is undefined: a TypeError is thrown. -/
  | throws (message : JsString)
  /-- The item has no `.result-text`: the method returns. -/
  | returns
  /-- `navigator.clipboard.writeText` is called with this text. -/
  | writes (text : JsString)

/-- `copyResult(index)` up to its `await`, on a page whose only elements of
class `result-item` are in the results list. The continuation (label swap, or
error banner when the clipboard refuses) is not modelled. -/
def copyResult (ui : UI) (index : Nat) : CopyStep :=
  match (selectAllIn "result-item".toList ui.resultsList)[index]? with
  | none => .throws (typeErrorMessage "querySelector".toList)
  | some item =>
    match item.querySelector "result-text".toList with
    | none => .returns
    | some resultText => .writes resultText.textContent

/-- The operations of the controller that change what is shown. -/
inductive Operation where
  | showAnalysis
  | showResults
  | displayAnalysis (data : Body)
  | displayResults (results : Option (List DecodeOutcome))
  | showLoading
  | hideLoading
  | showError (message : JsString)
  | hideError

/-- An operation of the controller, run. -/
def Operation.run (s : Sys) : Operation → Sys
  | .showAnalysis => { s with ui := DecryptionToolkit.showAnalysis s.ui }
  | .showResults => { s with ui := DecryptionToolkit.showResults s.ui }
  | .displayAnalysis data => { s with ui := (DecryptionToolkit.displayAnalysis s.ui data).1 }
  | .displayResults results => { s with ui := (DecryptionToolkit.displayResults s.ui results).1 }
  | .showLoading => { s with ui := DecryptionToolkit.showLoading s.ui }
  | .hideLoading => { s with ui := DecryptionToolkit.hideLoading s.ui }
  | .showError message => DecryptionToolkit.showError s message
  | .hideError => { s with ui := DecryptionToolkit.hideError s.ui }

/-- A sequence of operations of the controller, run. -/
def runOperations (s : Sys) (ops : List Operation) : Sys := ops.foldl Operation.run s

/-- The method of the given kind, started. -/
def startOperation (s : Sys) : OpKind → Sys
  | .analyze => analyzeText s
  | .decode => decodeText s

/-- The bookkeeping of operations in a state: a pending delay belongs to an
operation already started and is due 1000 ms after its start; a request issued
belongs to an operation already started and was issued at least 1000 ms after
its start; and every operation started has either its delay pending or exactly
one request issued. -/
def Accounted (s : Sys) : Prop :=
  (∀ t ∈ s.timers, ∀ kind op startedAt text, t.callback = .resume kind op startedAt text →
    op < s.nextOp ∧ t.due = startedAt + 1000) ∧
  (∀ r ∈ s.requests, r.op < s.nextOp ∧ r.startedAt + 1000 ≤ r.issuedAt) ∧
  (∀ op < s.nextOp, pendingDelays s op + requestsOf s op = 1)

/-- The method an event starts, if it starts one. -/
def Event.starts : Event → Option OpKind
  | .clickAnalyze => some .analyze
  | .clickDecode => some .decode
  | .ctrlEnter => some .decode
  | _ => none

/-- The copy button of the result item at position `index`. -/
def copyButton (index : Nat) : Node :=
  .elem "button".toList
    [ ("class".toList, "btn btn-secondary copy-btn".toList),
      ("onclick".toList, "app.copyResult(".toList ++ decimalDigits index ++ ")".toList) ]
    [ .text "\n                        Copy\n                    ".toList ]

/-- The number a string of decimal digits denotes. -/
def parseDecimal (s : JsString) : Nat := s.foldl (fun acc c => 10 * acc + (c.toNat - 48)) 0

/-- The names, with their semicolon, of the character references that
`escapeHtml` writes. -/
def entityNames : List JsString := ["amp;".toList, "nbsp;".toList, "lt;".toList, "gt;".toList]

/-- `digitCandidate` with the rounding left out: what it computes when every
product involved is an integer below `2 ^ 53`, which binary64 holds exactly. -/
def digitCandidateExact (x nd k : Nat) : Option (Nat × Nat) :=
  let p := 10 ^ (nd - k)
  let lo := x / p
  let hi := lo + 1
  let okLo : Bool := lo * p = x
  let okHi : Bool := hi * p = x
  let below : Nat × Nat := (nd, lo)
  let above : Nat × Nat := if hi = 10 ^ k then (nd + 1, 10 ^ (k - 1)) else (nd, hi)
  if okLo && okHi then
    (if x - lo * p < hi * p - x then some below
     else if hi * p - x < x - lo * p then some above
     else if lo % 2 = 0 then some below else some above)
  else if okLo then some below
  else if okHi then some above
  else none

/-- `positiveToString` with `digitCandidateExact` for `digitCandidate`. -/
def positiveToStringExact (x : Nat) : JsString :=
  let nks := ((List.range (decimalDigits x).length).findSome?
    (fun i => (digitCandidateExact x (decimalDigits x).length (i + 1)).map
      (fun ns => (ns.1, i + 1, ns.2)))).getD
    ((decimalDigits x).length, (decimalDigits x).length, x)
  let ds := decimalDigits nks.2.2
  if nks.1 ≤ 21 then ds ++ List.replicate (nks.1 - nks.2.1) '0'
  else if nks.2.1 = 1 then ds ++ "e+".toList ++ decimalDigits (nks.1 - 1)
  else ds.take 1 ++ '.' :: ds.drop 1 ++ "e+".toList ++ decimalDigits (nks.1 - 1)

/-! ## The fragment parser on the markup of the renderers -/

theorem tokenize_append (t : Tokenizer) (a b : JsString) :
    tokenize t (a ++ b) =
      ((tokenize (tokenize t a).1 b).1, (tokenize t a).2 ++ (tokenize (tokenize t a).1 b).2) := by
  induction a generalizing t with
  | nil => simp [tokenize]
  | cons c a ih => simp [tokenize, ih, List.append_assoc]

theorem buildTree_append (st : List Frame) (x y : List Token) :
    buildTree st (x ++ y) = (buildTree st x).bind (fun s => buildTree s y) := by
  induction x generalizing st with
  | nil => simp [buildTree]
  | cons tok x ih =>
    simp only [List.cons_append, buildTree]
    cases treeStep st tok with
    | none => simp
    | some s => simp [ih]

theorem run_eq (b : Bool) (t : Tokenizer) (st : List Frame) (cs : JsString) :
    PState.run ⟨b, t, st⟩ cs =
      (buildTree st (tokenize t (normalizeNewlinesFrom b cs)).2).map
        (fun st2 => ⟨endsCR b cs, (tokenize t (normalizeNewlinesFrom b cs)).1, st2⟩) := by
  induction cs generalizing b t st with
  | nil => simp [PState.run, normalizeNewlinesFrom, tokenize, buildTree, endsCR]
  | cons c cs ih =>
    simp only [PState.run, PState.step, normalizeNewlinesFrom, endsCR]
    by_cases h1 : c = CR
    · simp only [h1, if_true, PState.feed, tokenize, buildTree_append]
      cases buildTree st (tokenStep t LF).2 with
      | none => simp
      | some st2 => simp [ih]
    · by_cases h2 : (c = LF && b) = true
      · simp only [h1, h2, if_true, if_false]
        simp [ih, h1]
      · simp only [h1, h2, if_false, PState.feed, tokenize, buildTree_append]
        cases buildTree st (tokenStep t c).2 with
        | none => simp
        | some st2 => simp [ih, h1]

theorem parseFragment_eq_run (markup : JsString) :
    parseFragment markup = (PState.init.run markup).bind PState.finish := by
  unfold parseFragment PState.init normalizeNewlines
  rw [run_eq]
  simp only []
  cases h : buildTree [⟨[], [], []⟩]
      (tokenize Tokenizer.start (normalizeNewlinesFrom false markup)).2 with
  | none => simp
  | some st =>
    cases st with
    | nil => simp [PState.finish]
    | cons r rest => cases rest <;> simp [PState.finish]

theorem run_append (s : PState) (a b : JsString) :
    s.run (a ++ b) = (s.run a).bind (fun s2 => s2.run b) := by
  induction a generalizing s with
  | nil => simp [PState.run]
  | cons c a ih =>
    simp only [List.cons_append, PState.run]
    cases s.step c with
    | none => simp
    | some s2 => simp [ih]

theorem feed_text (b b2 : Bool) (f : Frame) (below : List Frame) (c : Char) (hc : c ≠ '<') :
    PState.feed ⟨b, Tokenizer.start, f :: below⟩ b2 c =
      some ⟨b2, Tokenizer.start, { f with kidsRev := insertChar c f.kidsRev } :: below⟩ := by
  have h1 : tokenStep Tokenizer.start c = (Tokenizer.start, [Token.char c]) := by
    simp [tokenStep, Tokenizer.start, hc]
  simp only [PState.feed, h1, buildTree, treeStep]
  rfl

/-- A run of text characters read in the data state lands in the current node. -/
theorem run_text (b : Bool) (f : Frame) (below : List Frame) (cs : JsString) (h : '<' ∉ cs) :
    PState.run ⟨b, Tokenizer.start, f :: below⟩ cs =
      some ⟨endsCR b cs, Tokenizer.start,
        { f with kidsRev := insertChars (normalizeNewlinesFrom b cs) f.kidsRev } :: below⟩ := by
  induction cs generalizing b f with
  | nil => simp [PState.run, endsCR, normalizeNewlinesFrom, insertChars]
  | cons c cs ih =>
    have hc : c ≠ '<' := fun e => h (by simp [e])
    have hcs : '<' ∉ cs := fun e => h (by simp [e])
    have hLF : LF ≠ '<' := by decide
    simp only [PState.run, PState.step, normalizeNewlinesFrom, endsCR]
    by_cases h1 : c = CR
    · rw [if_pos h1, if_pos h1, feed_text _ _ _ _ _ hLF, Option.some_bind, ih _ _ hcs]
      simp [insertChars, h1]
    · by_cases h2 : (c = LF && b) = true
      · rw [if_neg h1, if_neg h1, if_pos h2, if_pos h2, Option.some_bind, ih _ _ hcs]
        simp [h1]
      · rw [if_neg h1, if_neg h1, if_neg h2, if_neg h2, feed_text _ _ _ _ _ hc,
          Option.some_bind, ih _ _ hcs]
        simp [insertChars, h1]

theorem norm_noCR (b : Bool) (cs : JsString) (h : CR ∉ cs) (h2 : b = false ∨ cs.head? ≠ some LF) :
    normalizeNewlinesFrom b cs = cs := by
  induction cs generalizing b with
  | nil => rfl
  | cons c cs ih =>
    have hc : c ≠ CR := fun e => h (by simp [e])
    have hcs : CR ∉ cs := fun e => h (by simp [e])
    have h3 : ¬ ((c = LF && b) = true) := by
      rcases h2 with h2 | h2
      · simp [h2]
      · simp at h2; simp [h2]
    simp only [normalizeNewlinesFrom]
    rw [if_neg hc, if_neg h3, ih false hcs (Or.inl rfl)]

theorem endsCR_noCR (b : Bool) (cs : JsString) (h : CR ∉ cs) :
    endsCR b cs = (if cs = [] then b else false) := by
  induction cs generalizing b with
  | nil => rfl
  | cons c cs ih =>
    have hc : c ≠ CR := fun e => h (by simp [e])
    have hcs : CR ∉ cs := fun e => h (by simp [e])
    simp only [endsCR, ih _ hcs]
    by_cases h1 : cs = [] <;> simp [h1, hc]

theorem run_text_then (b : Bool) (tag : JsString) (attrs : List (JsString × JsString))
    (kids : List Node) (below : List Frame) (cs rest : JsString) (h : '<' ∉ cs) :
    PState.run ⟨b, Tokenizer.start, ⟨tag, attrs, kids⟩ :: below⟩ (cs ++ rest) =
      PState.run ⟨endsCR b cs, Tokenizer.start,
        ⟨tag, attrs, insertChars (normalizeNewlinesFrom b cs) kids⟩ :: below⟩ rest := by
  rw [run_append, run_text _ _ _ _ h]; rfl

/-- A literal that the tokenizer turns into exactly one tag token. -/
theorem run_tag (b : Bool) (stack : List Frame) (L : JsString) (tok : Token)
    (h1 : tokenize Tokenizer.start L = (Tokenizer.start, [tok]))
    (h2 : CR ∉ L) (h3 : L.head? = some '<') :
    PState.run ⟨b, Tokenizer.start, stack⟩ L =
      (treeStep stack tok).map (fun st => ⟨false, Tokenizer.start, st⟩) := by
  have hne : L ≠ [] := by intro e; simp [e] at h3
  have h4 : L.head? ≠ some LF := by rw [h3]; decide
  rw [run_eq, norm_noCR b L h2 (Or.inr h4), endsCR_noCR b L h2, h1]
  simp only [buildTree, if_neg hne]
  cases treeStep stack tok <;> rfl

theorem run_open_then (b : Bool) (f : Frame) (below : List Frame) (L rest : JsString)
    (name : JsString) (attrs : List (JsString × JsString))
    (h1 : tokenize Tokenizer.start L = (Tokenizer.start, [.startTag name attrs]))
    (h2 : CR ∉ L) (h3 : L.head? = some '<')
    (h4 : (supportedTags.contains name &&
        !((f :: below).map Frame.tag).any (fun g => g = "p".toList || g = "button".toList ||
          g = "h4".toList)) = true) :
    PState.run ⟨b, Tokenizer.start, f :: below⟩ (L ++ rest) =
      PState.run ⟨false, Tokenizer.start, ⟨name, attrs, []⟩ :: f :: below⟩ rest := by
  rw [run_append, run_tag b _ L _ h1 h2 h3]
  have h5 : treeStep (f :: below) (.startTag name attrs) = some (⟨name, attrs, []⟩ :: f :: below) := by
    simp only [treeStep]
    rw [if_pos]
    simpa [List.any_map, Function.comp] using h4
  rw [h5]; rfl

theorem run_close_then (b : Bool) (name : JsString) (attrs : List (JsString × JsString))
    (kids : List Node) (ptag : JsString) (pattrs : List (JsString × JsString))
    (pkids : List Node) (below : List Frame) (L rest : JsString)
    (h1 : tokenize Tokenizer.start L = (Tokenizer.start, [.endTag name]))
    (h2 : CR ∉ L) (h3 : L.head? = some '<') :
    PState.run ⟨b, Tokenizer.start, ⟨name, attrs, kids⟩ :: ⟨ptag, pattrs, pkids⟩ :: below⟩
        (L ++ rest) =
      PState.run ⟨false, Tokenizer.start,
        ⟨ptag, pattrs, .elem name attrs kids.reverse :: pkids⟩ :: below⟩ rest := by
  rw [run_append, run_tag b _ L _ h1 h2 h3]
  simp [treeStep]

theorem lt_not_mem_escapeHtml (s : JsString) : '<' ∉ escapeHtml s := by
  induction s with
  | nil => simp [escapeHtml]
  | cons c s ih =>
    simp only [escapeHtml, List.mem_append, not_or]
    refine ⟨?_, ih⟩
    unfold escapeChar
    split_ifs with h1 h2 h3 h4
    · decide
    · decide
    · decide
    · decide
    · simpa using fun e => h3 e.symm

theorem detectionMarkup_pieces (d : Detection) :
    detectionMarkup d =
      indent 12 ++ ("<div class=\"detection-info\">".toList ++ (indent 16 ++ ("<h4>".toList ++
      (escapeHtml d.name ++ ("</h4>".toList ++ (indent 16 ++ ("<p>".toList ++
      (escapeHtml d.description ++ ("</p>".toList ++ (indent 12 ++ ("</div>".toList ++
      (indent 12 ++ ("<span class=\"confidence-badge\">".toList ++
      (((confidencePercentage d.confidence).toJsString ++ "%".toList) ++
      ("</span>".toList ++ (indent 8 ++ [])))))))))))))))) := by
  have h1 : "\n            <div class=\"detection-info\">\n                <h4>".toList =
      indent 12 ++ ("<div class=\"detection-info\">".toList ++ (indent 16 ++ "<h4>".toList)) := by
    decide
  have h2 : "</h4>\n                <p>".toList =
      "</h4>".toList ++ (indent 16 ++ "<p>".toList) := by decide
  have h3 : "</p>\n            </div>\n            <span class=\"confidence-badge\">".toList =
      "</p>".toList ++ (indent 12 ++ ("</div>".toList ++ (indent 12 ++
        "<span class=\"confidence-badge\">".toList))) := by decide
  have h4 : "%</span>\n        ".toList = "%".toList ++ ("</span>".toList ++ indent 8) := by
    decide
  unfold detectionMarkup
  rw [h1, h2, h3, h4]
  simp only [List.append_assoc, List.append_nil]

theorem digitChar_plain (d : Nat) : isPlain (digitChar d) = true := by
  have h : d % 10 < 10 := Nat.mod_lt d (by decide)
  unfold digitChar
  interval_cases d % 10 <;> decide

theorem decimalDigitsAux_plain (fuel n : Nat) : ∀ c ∈ decimalDigitsAux fuel n, isPlain c = true := by
  induction fuel generalizing n with
  | zero => simp [decimalDigitsAux]
  | succ fuel ih =>
    intro c hc
    simp only [decimalDigitsAux] at hc
    split_ifs at hc
    · simp only [List.mem_singleton] at hc
      rw [hc]; exact digitChar_plain n
    · simp only [List.mem_append, List.mem_singleton] at hc
      rcases hc with hc | hc
      · exact ih _ c hc
      · rw [hc]; exact digitChar_plain n

theorem decimalDigits_plain (n : Nat) : ∀ c ∈ decimalDigits n, isPlain c = true :=
  decimalDigitsAux_plain _ _

theorem positiveToString_plain (x : Nat) : ∀ c ∈ positiveToString x, isPlain c = true := by
  intro c hc
  unfold positiveToString at hc
  simp only at hc
  split_ifs at hc
  · simp only [List.mem_append, List.mem_replicate] at hc
    rcases hc with hc | ⟨_, hc⟩
    · exact decimalDigits_plain _ c hc
    · rw [hc]; decide
  · simp only [List.mem_append] at hc
    rcases hc with (hc | hc) | hc
    · exact decimalDigits_plain _ c hc
    · have : c = 'e' ∨ c = '+' := by simpa using hc
      rcases this with h | h <;> rw [h] <;> decide
    · exact decimalDigits_plain _ c hc
  · simp only [List.mem_append, List.mem_cons] at hc
    rcases hc with ((hc | hc | hc) | hc) | hc
    · exact decimalDigits_plain _ c (List.mem_of_mem_take hc)
    · rw [hc]; decide
    · exact decimalDigits_plain _ c (List.mem_of_mem_drop hc)
    · have : c = 'e' ∨ c = '+' := by simpa using hc
      rcases this with h | h <;> rw [h] <;> decide
    · exact decimalDigits_plain _ c hc

theorem toJsString_plain (x : JsIntegral) : ∀ c ∈ x.toJsString, isPlain c = true := by
  intro c hc
  unfold JsIntegral.toJsString at hc
  split at hc
  · have : c = '0' := by simpa using hc
    rw [this]; decide
  · exact positiveToString_plain _ c hc
  · simp only [List.mem_cons] at hc
    rcases hc with hc | hc
    · rw [hc]; decide
    · exact positiveToString_plain _ c hc
  · revert c; decide
  · revert c; decide

theorem decode_cons (c : Char) (rest : JsString) (h : c ≠ '&') :
    decodeCharRefs (c :: rest) = (decodeCharRefs rest).map (fun t => c :: t) := by
  rw [decodeCharRefs.eq_def]; simp [h]

theorem decode_norm_escape (b : Bool) (s : JsString) :
    decodeCharRefs (normalizeNewlinesFrom b (escapeHtml s)) = some (normalizeNewlinesFrom b s) := by
  induction s generalizing b with
  | nil => simp [escapeHtml, normalizeNewlinesFrom, decodeCharRefs]
  | cons c s ih =>
    simp only [escapeHtml, escapeChar]
    by_cases h1 : c = '&'
    · subst h1
      have e : normalizeNewlinesFrom b ("&amp;".toList ++ escapeHtml s) =
          '&' :: 'a' :: 'm' :: 'p' :: ';' :: normalizeNewlinesFrom false (escapeHtml s) := by
        cases b <;> rfl
      have e2 : normalizeNewlinesFrom b ('&' :: s) = '&' :: normalizeNewlinesFrom false s := by
        cases b <;> rfl
      rw [if_pos rfl, e, e2, decodeCharRefs]
      simp [ih]
    · by_cases h2 : c = NBSP
      · subst h2
        have e : normalizeNewlinesFrom b ("&nbsp;".toList ++ escapeHtml s) =
            '&' :: 'n' :: 'b' :: 's' :: 'p' :: ';' ::
              normalizeNewlinesFrom false (escapeHtml s) := by
          cases b <;> rfl
        have e2 : normalizeNewlinesFrom b (NBSP :: s) = NBSP :: normalizeNewlinesFrom false s := by
          cases b <;> rfl
        rw [if_neg h1, if_pos rfl, e, e2, decodeCharRefs]
        simp [ih]
      · by_cases h3 : c = '<'
        · subst h3
          have e : normalizeNewlinesFrom b ("&lt;".toList ++ escapeHtml s) =
              '&' :: 'l' :: 't' :: ';' :: normalizeNewlinesFrom false (escapeHtml s) := by
            cases b <;> rfl
          have e2 : normalizeNewlinesFrom b ('<' :: s) = '<' :: normalizeNewlinesFrom false s := by
            cases b <;> rfl
          rw [if_neg h1, if_neg h2, if_pos rfl, e, e2, decodeCharRefs]
          simp [ih]
        · by_cases h4 : c = '>'
          · subst h4
            have e : normalizeNewlinesFrom b ("&gt;".toList ++ escapeHtml s) =
                '&' :: 'g' :: 't' :: ';' :: normalizeNewlinesFrom false (escapeHtml s) := by
              cases b <;> rfl
            have e2 : normalizeNewlinesFrom b ('>' :: s) =
                '>' :: normalizeNewlinesFrom false s := by
              cases b <;> rfl
            rw [if_neg h1, if_neg h2, if_neg h3, if_pos rfl, e, e2, decodeCharRefs]
            simp [ih]
          · rw [if_neg h1, if_neg h2, if_neg h3, if_neg h4]
            rw [show [c] ++ escapeHtml s = c :: escapeHtml s from rfl]
            simp only [normalizeNewlinesFrom]
            by_cases h5 : c = CR
            · rw [if_pos h5, if_pos h5, decode_cons _ _ (by decide), ih]; rfl
            · rw [if_neg h5, if_neg h5]
              by_cases h6 : (c = LF && b) = true
              · rw [if_pos h6, if_pos h6, ih]
              · rw [if_neg h6, if_neg h6, decode_cons _ _ h1, ih]; rfl

theorem insertChars_text (cs d : JsString) (rest : List Node) :
    insertChars cs (.text d :: rest) = .text (d ++ cs) :: rest := by
  induction cs generalizing d with
  | nil => simp [insertChars]
  | cons c cs ih =>
    have : insertChars (c :: cs) (.text d :: rest) = insertChars cs (.text (d ++ [c]) :: rest) := rfl
    rw [this, ih]; simp

theorem insertChars_new (cs : JsString) (kids : List Node) (h : endsWithText kids = false)
    (hne : cs ≠ []) : insertChars cs kids = .text cs :: kids := by
  cases cs with
  | nil => exact absurd rfl hne
  | cons c cs =>
    have : insertChars (c :: cs) kids = insertChars cs (.text [c] :: kids) := by
      cases kids with
      | nil => rfl
      | cons k ks =>
        cases k with
        | text d => simp [endsWithText] at h
        | elem t a k => rfl
    rw [this, insertChars_text]; rfl

theorem insertChars_nil (cs : JsString) : insertChars cs [] = textNodes cs := by
  unfold textNodes
  by_cases h : cs = []
  · simp [h, insertChars]
  · rw [if_neg h, insertChars_new cs [] rfl h]

/-- A literal text run without CR read right after a tag. -/
theorem run_lit_then (tag : JsString) (attrs : List (JsString × JsString))
    (kids : List Node) (below : List Frame) (cs rest : JsString)
    (h : '<' ∉ cs) (h2 : CR ∉ cs) (h3 : cs ≠ []) (h4 : endsWithText kids = false) :
    PState.run ⟨false, Tokenizer.start, ⟨tag, attrs, kids⟩ :: below⟩ (cs ++ rest) =
      PState.run ⟨false, Tokenizer.start, ⟨tag, attrs, .text cs :: kids⟩ :: below⟩ rest := by
  rw [run_text_then _ _ _ _ _ _ _ h, norm_noCR false cs h2 (Or.inl rfl), endsCR_noCR _ _ h2,
    if_neg h3, insertChars_new cs kids h4 h3]

theorem indent_props (n : Nat) : '<' ∉ indent n ∧ CR ∉ indent n ∧ indent n ≠ [] := by
  refine ⟨?_, ?_, by simp [indent]⟩
  · simp only [indent, List.mem_cons, List.mem_replicate, not_or, not_and]
    exact ⟨by decide, fun _ => by decide⟩
  · simp only [indent, List.mem_cons, List.mem_replicate, not_or, not_and]
    exact ⟨by decide, fun _ => by decide⟩

theorem plain_props (cs : JsString) (h : ∀ c ∈ cs, isPlain c = true) :
    '<' ∉ cs ∧ CR ∉ cs ∧ '&' ∉ cs ∧ NUL ∉ cs ∧ DQUOTE ∉ cs ∧ LF ∉ cs := by
  refine ⟨?_, ?_, ?_, ?_, ?_, ?_⟩ <;> intro hm <;> have := h _ hm <;> revert this <;> decide

/-- A hole filled with escaped text, read as the only content of an element. -/
theorem run_hole_then (tag : JsString) (attrs : List (JsString × JsString))
    (below : List Frame) (s rest : JsString) :
    PState.run ⟨false, Tokenizer.start, ⟨tag, attrs, []⟩ :: below⟩ (escapeHtml s ++ rest) =
      PState.run ⟨endsCR false (escapeHtml s), Tokenizer.start,
        ⟨tag, attrs, textNodes (normalizeNewlines (escapeHtml s))⟩ :: below⟩ rest := by
  rw [run_text_then _ _ _ _ _ _ _ (lt_not_mem_escapeHtml s), insertChars_nil]; rfl

/-- A start tag read in a stack whose open elements have the tags `tags`. -/
theorem run_open (tags : List JsString) (name : JsString) (attrs : List (JsString × JsString))
    (b : Bool) (f : Frame) (below : List Frame) (L rest : JsString)
    (h1 : tokenize Tokenizer.start L = (Tokenizer.start, [.startTag name attrs]))
    (h2 : CR ∉ L) (h3 : L.head? = some '<')
    (h4 : (supportedTags.contains name &&
        !tags.any (fun g => g = "p".toList || g = "button".toList || g = "h4".toList)) = true)
    (h5 : (f :: below).map Frame.tag = tags) :
    PState.run ⟨b, Tokenizer.start, f :: below⟩ (L ++ rest) =
      PState.run ⟨false, Tokenizer.start, ⟨name, attrs, []⟩ :: f :: below⟩ rest := by
  subst h5
  exact run_open_then b f below L rest name attrs h1 h2 h3 h4

theorem decode_noAmp (cs : JsString) (h : '&' ∉ cs) : decodeCharRefs cs = some cs := by
  induction cs with
  | nil => simp [decodeCharRefs]
  | cons c cs ih =>
    have hc : c ≠ '&' := fun e => h (by simp [e])
    have hcs : '&' ∉ cs := fun e => h (by simp [e])
    rw [decode_cons _ _ hc, ih hcs]; rfl

theorem cookText_plain (cs : JsString) (h1 : '&' ∉ cs) (h2 : NUL ∉ cs) :
    cookText cs = some cs := by
  unfold cookText
  rw [decode_noAmp cs h1]
  simp only [Option.map_some', Option.some.injEq, List.filter_eq_self]
  intro c hc
  have : c ≠ NUL := fun e => h2 (e ▸ hc)
  simpa using this

theorem cookText_indent (n : Nat) : cookText (indent n) = some (indent n) := by
  apply cookText_plain
  · simp only [indent, List.mem_cons, List.mem_replicate, not_or, not_and]
    exact ⟨by decide, fun _ => by decide⟩
  · simp only [indent, List.mem_cons, List.mem_replicate, not_or, not_and]
    exact ⟨by decide, fun _ => by decide⟩

theorem cookText_escape (s : JsString) :
    cookText (normalizeNewlines (escapeHtml s)) = some (domText s) := by
  unfold cookText normalizeNewlines domText
  rw [decode_norm_escape]; rfl

theorem cookNodes_hole (s : JsString) :
    cookNodes (textNodes (normalizeNewlines (escapeHtml s))).reverse =
      some (textNodes (domText s)) := by
  unfold textNodes
  by_cases h : normalizeNewlines (escapeHtml s) = []
  · have h2 := cookText_escape s
    rw [h] at h2
    have h3 : domText s = [] := by
      have : cookText [] = some [] := rfl
      rw [this] at h2
      exact (Option.some.inj h2).symm
    simp [h, h3, cookNodes]
  · rw [if_neg h]
    simp only [List.reverse_cons, List.reverse_nil, List.nil_append, cookNodes, cookNode,
      cookText_escape, Option.map_some', Option.some_bind, List.append_nil]

theorem parseFragment_detectionMarkup (d : Detection) :
    parseFragment (detectionMarkup d) = some (detectionChildren d) := by
  rw [parseFragment_eq_run, detectionMarkup_pieces]
  unfold PState.init
  have hi := indent_props
  have hp := plain_props ((confidencePercentage d.confidence).toJsString ++ "%".toList)
    (by
      intro c hc
      rcases List.mem_append.1 hc with h | h
      · exact toJsString_plain _ c h
      · have : c = '%' := by simpa using h
        rw [this]; decide)
  rw [run_lit_then _ _ _ _ _ _ (hi 12).1 (hi 12).2.1 (hi 12).2.2 (by rfl)]
  rw [run_open [[]] "div".toList [("class".toList, "detection-info".toList)] _ _ _ _ _
    (by decide) (by decide) (by decide) (by decide) (by rfl)]
  rw [run_lit_then _ _ _ _ _ _ (hi 16).1 (hi 16).2.1 (hi 16).2.2 (by rfl)]
  rw [run_open ["div".toList, []] "h4".toList [] _ _ _ _ _
    (by decide) (by decide) (by decide) (by decide) (by rfl)]
  rw [run_hole_then]
  rw [run_close_then _ _ _ _ _ _ _ _ _ _ (by decide) (by decide) (by decide)]
  rw [run_lit_then _ _ _ _ _ _ (hi 16).1 (hi 16).2.1 (hi 16).2.2 (by rfl)]
  rw [run_open ["div".toList, []] "p".toList [] _ _ _ _ _
    (by decide) (by decide) (by decide) (by decide) (by rfl)]
  rw [run_hole_then]
  rw [run_close_then _ _ _ _ _ _ _ _ _ _ (by decide) (by decide) (by decide)]
  rw [run_lit_then _ _ _ _ _ _ (hi 12).1 (hi 12).2.1 (hi 12).2.2 (by rfl)]
  rw [run_close_then _ _ _ _ _ _ _ _ _ _ (by decide) (by decide) (by decide)]
  rw [run_lit_then _ _ _ _ _ _ (hi 12).1 (hi 12).2.1 (hi 12).2.2 (by rfl)]
  rw [run_open [[]] "span".toList [("class".toList, "confidence-badge".toList)] _ _ _ _ _
    (by decide) (by decide) (by decide) (by decide) (by rfl)]
  rw [run_lit_then _ _ _ _ _ _ hp.1 hp.2.1 (by simp) (by rfl)]
  rw [run_close_then _ _ _ _ _ _ _ _ _ _ (by decide) (by decide) (by decide)]
  rw [run_lit_then _ _ _ _ _ _ (hi 8).1 (hi 8).2.1 (hi 8).2.2 (by rfl)]
  simp only [PState.run, Option.some_bind, PState.finish, Tokenizer.start, if_true,
    List.reverse_cons, List.reverse_nil, List.nil_append, List.cons_append, cookNodes, cookNode,
    cookText_indent, cookNodes_hole, cookText_plain _ hp.2.2.1 hp.2.2.2.1, Option.map_some',
    detectionChildren]
  simp [indent]

theorem tokenize_attrValue (e : Bool) (n an av : JsString) (a : List (JsString × JsString))
    (cs : JsString) (h : ∀ c ∈ cs, isPlain c = true) :
    tokenize ⟨.attributeValueDoubleQuoted, e, n, a, an, av⟩ cs =
      (⟨.attributeValueDoubleQuoted, e, n, a, an, av ++ cs⟩, []) := by
  induction cs generalizing av with
  | nil => simp [tokenize]
  | cons c cs ih =>
    have hc := (plain_props [c] (by intro x hx; simp at hx; rw [hx]; exact h c (by simp)))
    have h1 : c ≠ DQUOTE := fun e => hc.2.2.2.2.1 (by simp [e])
    have h2 : c ≠ '&' := fun e => hc.2.2.1 (by simp [e])
    have h3 : c ≠ NUL := fun e => hc.2.2.2.1 (by simp [e])
    have hs : tokenStep ⟨.attributeValueDoubleQuoted, e, n, a, an, av⟩ c =
        (⟨.attributeValueDoubleQuoted, e, n, a, an, av ++ [c]⟩, []) := by
      simp [tokenStep, h1, h2, h3]
    simp only [tokenize, hs, List.nil_append]
    rw [ih _ (fun x hx => h x (by simp [hx]))]
    simp

set_option maxRecDepth 100000 in
theorem tokenize_button (index : Nat) :
    tokenize Tokenizer.start
      ("<button class=\"btn btn-secondary copy-btn\" onclick=\"app.copyResult(".toList ++
        decimalDigits index ++ ")\">".toList) =
      (Tokenizer.start, [.startTag "button".toList
        [ ("class".toList, "btn btn-secondary copy-btn".toList),
          ("onclick".toList, "app.copyResult(".toList ++ decimalDigits index ++ ")".toList) ]]) := by
  have h1 : tokenize Tokenizer.start
      "<button class=\"btn btn-secondary copy-btn\" onclick=\"app.copyResult(".toList =
      (⟨.attributeValueDoubleQuoted, false, "button".toList,
        [("class".toList, "btn btn-secondary copy-btn".toList)], "onclick".toList,
        "app.copyResult(".toList⟩, []) := by decide
  rw [tokenize_append, tokenize_append, h1]
  simp only [tokenize_attrValue _ _ _ _ _ _ (decimalDigits_plain index)]
  have h2 : ∀ av : JsString, tokenize ⟨.attributeValueDoubleQuoted, false, "button".toList,
        [("class".toList, "btn btn-secondary copy-btn".toList)], "onclick".toList, av⟩
        ")\">".toList =
      (Tokenizer.start, [.startTag "button".toList
        [("class".toList, "btn btn-secondary copy-btn".toList),
          ("onclick".toList, av ++ ")".toList)]]) := by
    intro av
    rfl
  rw [h2]
  simp

theorem norm_append (b : Bool) (a x : JsString) :
    normalizeNewlinesFrom b (a ++ x) =
      normalizeNewlinesFrom b a ++ normalizeNewlinesFrom (endsCR b a) x := by
  induction a generalizing b with
  | nil => rfl
  | cons c a ih =>
    rw [List.cons_append]
    simp only [normalizeNewlinesFrom, endsCR]
    by_cases h1 : c = CR
    · rw [if_pos h1, if_pos h1, ih]; simp [h1]
    · by_cases h2 : (c = LF && b) = true
      · rw [if_neg h1, if_neg h1, if_pos h2, if_pos h2, ih]; simp [h1]
      · rw [if_neg h1, if_neg h1, if_neg h2, if_neg h2, ih]; simp [h1]

/-- A literal without CR followed by escaped text, read as the only content
of an element. -/
theorem run_lit_hole_then (tag : JsString) (attrs : List (JsString × JsString))
    (below : List Frame) (lit s rest : JsString)
    (h : '<' ∉ lit) (h2 : CR ∉ lit) (h3 : lit ≠ []) :
    PState.run ⟨false, Tokenizer.start, ⟨tag, attrs, []⟩ :: below⟩
        ((lit ++ escapeHtml s) ++ rest) =
      PState.run ⟨endsCR false (lit ++ escapeHtml s), Tokenizer.start,
        ⟨tag, attrs, [.text (lit ++ normalizeNewlines (escapeHtml s))]⟩ :: below⟩ rest := by
  have hlt : '<' ∉ lit ++ escapeHtml s := by
    simp only [List.mem_append, not_or]
    exact ⟨h, lt_not_mem_escapeHtml s⟩
  rw [run_text_then _ _ _ _ _ _ _ hlt, norm_append, norm_noCR false lit h2 (Or.inl rfl),
    endsCR_noCR _ _ h2, if_neg h3, insertChars_new _ [] (by rfl) (by simp [h3])]
  rfl

theorem decode_append_noAmp (lit x : JsString) (h : '&' ∉ lit) :
    decodeCharRefs (lit ++ x) = (decodeCharRefs x).map (fun t => lit ++ t) := by
  induction lit with
  | nil => simp
  | cons c lit ih =>
    have hc : c ≠ '&' := fun e => h (by simp [e])
    have hl : '&' ∉ lit := fun e => h (by simp [e])
    rw [List.cons_append, decode_cons _ _ hc, ih hl]
    cases decodeCharRefs x <;> rfl

theorem cookText_lit_escape (lit s : JsString) (h1 : '&' ∉ lit) (h2 : NUL ∉ lit) :
    cookText (lit ++ normalizeNewlines (escapeHtml s)) = some (lit ++ domText s) := by
  unfold cookText
  rw [decode_append_noAmp _ _ h1]
  unfold normalizeNewlines domText
  rw [decode_norm_escape]
  have hf : lit.filter (fun c => c != NUL) = lit := by
    rw [List.filter_eq_self]
    intro c hc
    have : c ≠ NUL := fun e => h2 (e ▸ hc)
    simpa using this
  simp only [Option.map_some', List.filter_append, hf]
  rfl

theorem resultMarkup_success_pieces (r : DecodeOutcome) (index : Nat) (h : r.success = true) :
    resultMarkup r index =
      indent 16 ++ ("<div class=\"result-header\">".toList ++ (indent 20 ++
      ("<span class=\"result-decoder\">".toList ++ (escapeHtml r.decoder ++
      ("</span>".toList ++ (indent 20 ++ ("<span class=\"result-confidence\">".toList ++
      (((confidencePercentage r.confidence).toJsString ++ "%".toList) ++
      ("</span>".toList ++ (indent 16 ++ ("</div>".toList ++ (indent 16 ++
      ("<div class=\"result-content\">".toList ++ (indent 20 ++
      ("<div class=\"result-text\">".toList ++ (escapeHtml r.result ++
      ("</div>".toList ++ (indent 20 ++
      (("<button class=\"btn btn-secondary copy-btn\" onclick=\"app.copyResult(".toList ++
        decimalDigits index ++ ")\">".toList) ++
      (copyLabel ++ ("</button>".toList ++ (indent 16 ++ ("</div>".toList ++
      (indent 12 ++ [])))))))))))))))))))))))) := by
  have h1 : "\n                <div class=\"result-header\">\n                    <span class=\"result-decoder\">".toList =
      indent 16 ++ ("<div class=\"result-header\">".toList ++ (indent 20 ++
        "<span class=\"result-decoder\">".toList)) := by decide
  have h2 : "</span>\n                    <span class=\"result-confidence\">".toList =
      "</span>".toList ++ (indent 20 ++ "<span class=\"result-confidence\">".toList) := by decide
  have h3 : "%</span>\n                </div>\n                <div class=\"result-content\">\n                    <div class=\"result-text\">".toList =
      "%".toList ++ ("</span>".toList ++ (indent 16 ++ ("</div>".toList ++ (indent 16 ++
        ("<div class=\"result-content\">".toList ++ (indent 20 ++
          "<div class=\"result-text\">".toList)))))) := by decide
  have h4 : "</div>\n                    <button class=\"btn btn-secondary copy-btn\" onclick=\"app.copyResult(".toList =
      "</div>".toList ++ (indent 20 ++
        "<button class=\"btn btn-secondary copy-btn\" onclick=\"app.copyResult(".toList) := by
    decide
  have h5 : ")\">\n                        Copy\n                    </button>\n                </div>\n            ".toList =
      ")\">".toList ++ (copyLabel ++ ("</button>".toList ++ (indent 16 ++ ("</div>".toList ++
        indent 12)))) := by decide
  unfold resultMarkup
  rw [if_pos h, h1, h2, h3, h4, h5]
  simp only [List.append_assoc, List.append_nil]

theorem resultMarkup_failure_pieces (r : DecodeOutcome) (index : Nat) (h : r.success = false) :
    resultMarkup r index =
      indent 16 ++ ("<div class=\"result-header\">".toList ++ (indent 20 ++
      ("<span class=\"result-decoder\">".toList ++ (escapeHtml r.decoder ++
      ("</span>".toList ++ (indent 20 ++ ("<span class=\"result-confidence error\">".toList ++
      (((confidencePercentage r.confidence).toJsString ++ "%".toList) ++
      ("</span>".toList ++ (indent 16 ++ ("</div>".toList ++ (indent 16 ++
      ("<div class=\"result-content\">".toList ++ (indent 20 ++
      ("<div class=\"result-error\">".toList ++ (("Error: ".toList ++ escapeHtml r.error) ++
      ("</div>".toList ++ (indent 16 ++ ("</div>".toList ++
      (indent 12 ++ [])))))))))))))))))))) := by
  have h1 : "\n                <div class=\"result-header\">\n                    <span class=\"result-decoder\">".toList =
      indent 16 ++ ("<div class=\"result-header\">".toList ++ (indent 20 ++
        "<span class=\"result-decoder\">".toList)) := by decide
  have h2 : "</span>\n                    <span class=\"result-confidence error\">".toList =
      "</span>".toList ++ (indent 20 ++ "<span class=\"result-confidence error\">".toList) := by
    decide
  have h3 : "%</span>\n                </div>\n                <div class=\"result-content\">\n                    <div class=\"result-error\">Error: ".toList =
      "%".toList ++ ("</span>".toList ++ (indent 16 ++ ("</div>".toList ++ (indent 16 ++
        ("<div class=\"result-content\">".toList ++ (indent 20 ++
          ("<div class=\"result-error\">".toList ++ "Error: ".toList))))))) := by decide
  have h4 : "</div>\n                </div>\n            ".toList =
      "</div>".toList ++ (indent 16 ++ ("</div>".toList ++ indent 12)) := by decide
  have hs : r.success ≠ true := by simp [h]
  unfold resultMarkup
  rw [if_neg hs, h1, h2, h3, h4]
  simp only [List.append_assoc, List.append_nil]

theorem percent_plain (c : ℚ) :
    ∀ x ∈ (confidencePercentage c).toJsString ++ "%".toList, isPlain x = true := by
  intro x hx
  rcases List.mem_append.1 hx with h | h
  · exact toJsString_plain _ x h
  · have : x = '%' := by simpa using h
    rw [this]; decide

theorem button_noCR (index : Nat) :
    CR ∉ "<button class=\"btn btn-secondary copy-btn\" onclick=\"app.copyResult(".toList ++
        decimalDigits index ++ ")\">".toList := by
  simp only [List.mem_append, not_or]
  exact ⟨⟨by decide, (plain_props _ (decimalDigits_plain index)).2.1⟩, by decide⟩

set_option maxRecDepth 100000 in
theorem parseFragment_resultMarkup (r : DecodeOutcome) (index : Nat) :
    parseFragment (resultMarkup r index) = some (resultChildren r index) := by
  have hi := indent_props
  have hp := plain_props _ (percent_plain r.confidence)
  rw [parseFragment_eq_run]
  unfold PState.init
  cases hs : r.success with
  | true =>
    rw [resultMarkup_success_pieces r index hs]
    rw [run_lit_then _ _ _ _ _ _ (hi 16).1 (hi 16).2.1 (hi 16).2.2 (by rfl)]
    rw [run_open [[]] "div".toList [("class".toList, "result-header".toList)] _ _ _ _ _
      (by decide) (by decide) (by decide) (by decide) (by rfl)]
    rw [run_lit_then _ _ _ _ _ _ (hi 20).1 (hi 20).2.1 (hi 20).2.2 (by rfl)]
    rw [run_open ["div".toList, []] "span".toList [("class".toList, "result-decoder".toList)]
      _ _ _ _ _ (by decide) (by decide) (by decide) (by decide) (by rfl)]
    rw [run_hole_then]
    rw [run_close_then _ _ _ _ _ _ _ _ _ _ (by decide) (by decide) (by decide)]
    rw [run_lit_then _ _ _ _ _ _ (hi 20).1 (hi 20).2.1 (hi 20).2.2 (by rfl)]
    rw [run_open ["div".toList, []] "span".toList
      [("class".toList, "result-confidence".toList)]
      _ _ _ _ _ (by decide) (by decide) (by decide) (by decide) (by rfl)]
    rw [run_lit_then _ _ _ _ _ _ hp.1 hp.2.1 (by simp) (by rfl)]
    rw [run_close_then _ _ _ _ _ _ _ _ _ _ (by decide) (by decide) (by decide)]
    rw [run_lit_then _ _ _ _ _ _ (hi 16).1 (hi 16).2.1 (hi 16).2.2 (by rfl)]
    rw [run_close_then _ _ _ _ _ _ _ _ _ _ (by decide) (by decide) (by decide)]
    rw [run_lit_then _ _ _ _ _ _ (hi 16).1 (hi 16).2.1 (hi 16).2.2 (by rfl)]
    rw [run_open [[]] "div".toList [("class".toList, "result-content".toList)] _ _ _ _ _
      (by decide) (by decide) (by decide) (by decide) (by rfl)]
    rw [run_lit_then _ _ _ _ _ _ (hi 20).1 (hi 20).2.1 (hi 20).2.2 (by rfl)]
    rw [run_open ["div".toList, []] "div".toList [("class".toList, "result-text".toList)]
      _ _ _ _ _ (by decide) (by decide) (by decide) (by decide) (by rfl)]
    rw [run_hole_then]
    rw [run_close_then _ _ _ _ _ _ _ _ _ _ (by decide) (by decide) (by decide)]
    rw [run_lit_then _ _ _ _ _ _ (hi 20).1 (hi 20).2.1 (hi 20).2.2 (by rfl)]
    rw [run_open ["div".toList, []] "button".toList _ _ _ _ _ _
      (tokenize_button index) (button_noCR index) (by rfl) (by decide) (by rfl)]
    rw [run_lit_then _ _ _ _ _ _ (by decide) (by decide) (by decide) (by rfl)]
    rw [run_close_then _ _ _ _ _ _ _ _ _ _ (by decide) (by decide) (by decide)]
    rw [run_lit_then _ _ _ _ _ _ (hi 16).1 (hi 16).2.1 (hi 16).2.2 (by rfl)]
    rw [run_close_then _ _ _ _ _ _ _ _ _ _ (by decide) (by decide) (by decide)]
    rw [run_lit_then _ _ _ _ _ _ (hi 12).1 (hi 12).2.1 (hi 12).2.2 (by rfl)]
    have hc : cookText copyLabel = some copyLabel :=
      cookText_plain _ (by decide) (by decide)
    simp only [PState.run, Option.some_bind, PState.finish, Tokenizer.start, if_true,
      List.reverse_cons, List.reverse_nil, List.nil_append, List.cons_append, cookNodes,
      cookNode, cookText_indent, cookNodes_hole, cookText_plain _ hp.2.2.1 hp.2.2.2.1, hc,
      Option.map_some', resultChildren, hs]
    simp [indent, copyLabel]
  | false =>
    rw [resultMarkup_failure_pieces r index hs]
    rw [run_lit_then _ _ _ _ _ _ (hi 16).1 (hi 16).2.1 (hi 16).2.2 (by rfl)]
    rw [run_open [[]] "div".toList [("class".toList, "result-header".toList)] _ _ _ _ _
      (by decide) (by decide) (by decide) (by decide) (by rfl)]
    rw [run_lit_then _ _ _ _ _ _ (hi 20).1 (hi 20).2.1 (hi 20).2.2 (by rfl)]
    rw [run_open ["div".toList, []] "span".toList [("class".toList, "result-decoder".toList)]
      _ _ _ _ _ (by decide) (by decide) (by decide) (by decide) (by rfl)]
    rw [run_hole_then]
    rw [run_close_then _ _ _ _ _ _ _ _ _ _ (by decide) (by decide) (by decide)]
    rw [run_lit_then _ _ _ _ _ _ (hi 20).1 (hi 20).2.1 (hi 20).2.2 (by rfl)]
    rw [run_open ["div".toList, []] "span".toList
      [("class".toList, "result-confidence error".toList)]
      _ _ _ _ _ (by decide) (by decide) (by decide) (by decide) (by rfl)]
    rw [run_lit_then _ _ _ _ _ _ hp.1 hp.2.1 (by simp) (by rfl)]
    rw [run_close_then _ _ _ _ _ _ _ _ _ _ (by decide) (by decide) (by decide)]
    rw [run_lit_then _ _ _ _ _ _ (hi 16).1 (hi 16).2.1 (hi 16).2.2 (by rfl)]
    rw [run_close_then _ _ _ _ _ _ _ _ _ _ (by decide) (by decide) (by decide)]
    rw [run_lit_then _ _ _ _ _ _ (hi 16).1 (hi 16).2.1 (hi 16).2.2 (by rfl)]
    rw [run_open [[]] "div".toList [("class".toList, "result-content".toList)] _ _ _ _ _
      (by decide) (by decide) (by decide) (by decide) (by rfl)]
    rw [run_lit_then _ _ _ _ _ _ (hi 20).1 (hi 20).2.1 (hi 20).2.2 (by rfl)]
    rw [run_open ["div".toList, []] "div".toList [("class".toList, "result-error".toList)]
      _ _ _ _ _ (by decide) (by decide) (by decide) (by decide) (by rfl)]
    rw [run_lit_hole_then _ _ _ _ _ _ (by decide) (by decide) (by decide)]
    rw [run_close_then _ _ _ _ _ _ _ _ _ _ (by decide) (by decide) (by decide)]
    rw [run_lit_then _ _ _ _ _ _ (hi 16).1 (hi 16).2.1 (hi 16).2.2 (by rfl)]
    rw [run_close_then _ _ _ _ _ _ _ _ _ _ (by decide) (by decide) (by decide)]
    rw [run_lit_then _ _ _ _ _ _ (hi 12).1 (hi 12).2.1 (hi 12).2.2 (by rfl)]
    have he : cookText ("Error: ".toList ++ normalizeNewlines (escapeHtml r.error)) =
        some ("Error: ".toList ++ domText r.error) :=
      cookText_lit_escape _ _ (by decide) (by decide)
    simp only [PState.run, Option.some_bind, PState.finish, Tokenizer.start, if_true,
      List.reverse_cons, List.reverse_nil, List.nil_append, List.cons_append, cookNodes,
      cookNode, cookText_indent, cookNodes_hole, cookText_plain _ hp.2.2.1 hp.2.2.2.1, he,
      Option.map_some', resultChildren, hs]
    simp [indent]

theorem dropWhile_eq_nil_of_all (p : Char → Bool) (l : JsString) (h : ∀ c ∈ l, p c = true) :
    l.dropWhile p = [] := by
  induction l with
  | nil => rfl
  | cons c l ih =>
    rw [List.dropWhile_cons, if_pos (h c (by simp))]
    exact ih (fun x hx => h x (by simp [hx]))

theorem trim_eq_nil_of_blank (v : JsString) (h : ∀ c ∈ v, isJsWhitespace c = true) :
    trim v = [] := by
  unfold trim
  rw [dropWhile_eq_nil_of_all _ _ h]
  rfl

/-- C1. On an input that is empty or holds only whitespace, `analyzeText` and
`decodeText` issue no request (the request log and the in-flight list are
unchanged and the only timer added is the one hiding the banner), leave the
loading indicator and both disabled flags as they were, and show the banner
with the literal validation message. -/
theorem blank_input_rejected (s : Sys) (h : ∀ c ∈ s.ui.inputValue, isJsWhitespace c = true) :
    ((analyzeText s).requests = s.requests ∧ (analyzeText s).inflight = s.inflight ∧
      (analyzeText s).timers = s.timers ++ [⟨s.now + 5000, .hideError⟩] ∧
      (analyzeText s).ui.loadingHidden = s.ui.loadingHidden ∧
      (analyzeText s).ui.analyzeDisabled = s.ui.analyzeDisabled ∧
      (analyzeText s).ui.decodeDisabled = s.ui.decodeDisabled ∧
      (analyzeText s).ui.errorHidden = false ∧
      (analyzeText s).ui.errorText = "Please enter some text to analyze.".toList) ∧
    ((decodeText s).requests = s.requests ∧ (decodeText s).inflight = s.inflight ∧
      (decodeText s).timers = s.timers ++ [⟨s.now + 5000, .hideError⟩] ∧
      (decodeText s).ui.loadingHidden = s.ui.loadingHidden ∧
      (decodeText s).ui.analyzeDisabled = s.ui.analyzeDisabled ∧
      (decodeText s).ui.decodeDisabled = s.ui.decodeDisabled ∧
      (decodeText s).ui.errorHidden = false ∧
      (decodeText s).ui.errorText = "Please enter some text to decode.".toList) := by
  have ht := trim_eq_nil_of_blank _ h
  constructor
  · simp [analyzeText, ht, showError]
  · simp [decodeText, ht, showError]

/-- Witness of C1: the input made of two spaces and a line feed. -/
theorem blank_input_rejected_witness :
    (∀ c ∈ (Sys.initial (UI.idle [' ', ' ', LF])).ui.inputValue, isJsWhitespace c = true) ∧
    (analyzeText (Sys.initial (UI.idle [' ', ' ', LF]))).requests = [] ∧
    (analyzeText (Sys.initial (UI.idle [' ', ' ', LF]))).ui.errorText =
      "Please enter some text to analyze.".toList ∧
    (decodeText (Sys.initial (UI.idle [' ', ' ', LF]))).ui.errorText =
      "Please enter some text to decode.".toList :=
  ⟨by decide,
   (blank_input_rejected (Sys.initial (UI.idle [' ', ' ', LF])) (by decide)).1.1,
   (blank_input_rejected (Sys.initial (UI.idle [' ', ' ', LF])) (by decide)).1.2.2.2.2.2.2.2,
   (blank_input_rejected (Sys.initial (UI.idle [' ', ' ', LF])) (by decide)).2.2.2.2.2.2.2.2⟩

theorem finishRequest_flags (s : Sys) (kind : OpKind) (outcome : FetchOutcome) :
    (finishRequest s kind outcome).ui.loadingHidden = true ∧
    (finishRequest s kind outcome).ui.analyzeDisabled = false ∧
    (finishRequest s kind outcome).ui.decodeDisabled = false := by
  simp [finishRequest, hideLoading]

theorem getElem?_append_length {α : Type} (l : List α) (a : α) :
    (l ++ [a])[l.length]? = some a := by
  induction l with
  | nil => rfl
  | cons x l ih => simp

theorem eraseIdx_append_length {α : Type} (l : List α) (a : α) :
    (l ++ [a]).eraseIdx l.length = l := by
  induction l with
  | nil => rfl
  | cons x l ih => simpa using ih

/-- C2. An operation started on a non-blank input runs to its end whatever
the request's outcome (transport failure, body that is not JSON, status that is
not ok, success, success with a payload that makes the renderer throw): the
delay timer fires, the request is answered, and the page ends with the loading
indicator hidden and both buttons enabled; the handler of the response is
total, so nothing is thrown out of the operation. In any state, handling the
end of any request leaves the page in that condition. -/
theorem operation_restores_controls (s : Sys) (outcome : FetchOutcome)
    (h : trim s.ui.inputValue ≠ []) :
    (∃ s2, runSchedule (analyzeText s)
        [.advance 1000, .timer s.timers.length, .response s.inflight.length outcome] = some s2 ∧
      s2.ui.loadingHidden = true ∧ s2.ui.analyzeDisabled = false ∧
      s2.ui.decodeDisabled = false) ∧
    (∃ s2, runSchedule (decodeText s)
        [.advance 1000, .timer s.timers.length, .response s.inflight.length outcome] = some s2 ∧
      s2.ui.loadingHidden = true ∧ s2.ui.analyzeDisabled = false ∧
      s2.ui.decodeDisabled = false) ∧
    (∀ (t t2 : Sys) (i : Nat) (o : FetchOutcome), step t (.response i o) = some t2 →
      t2.ui.loadingHidden = true ∧ t2.ui.analyzeDisabled = false ∧
      t2.ui.decodeDisabled = false) := by
  refine ⟨?_, ?_, ?_⟩
  · simp only [analyzeText, if_neg h, runSchedule, step, Option.some_bind,
      getElem?_append_length, eraseIdx_append_length, Nat.le_refl, if_true, runCallback,
      issueRequest]
    exact ⟨_, rfl, finishRequest_flags _ _ _⟩
  · simp only [decodeText, if_neg h, runSchedule, step, Option.some_bind,
      getElem?_append_length, eraseIdx_append_length, Nat.le_refl, if_true, runCallback,
      issueRequest]
    exact ⟨_, rfl, finishRequest_flags _ _ _⟩
  · intro t t2 i o hstep
    simp only [step] at hstep
    cases hg : t.inflight[i]? with
    | none => rw [hg] at hstep; cases hstep
    | some r =>
      rw [hg] at hstep
      rw [← Option.some.inj hstep]
      exact finishRequest_flags _ _ _

/-- Witness of C2: the input `SGVsbG8=` and a transport failure. -/
theorem operation_restores_controls_witness :
    trim (Sys.initial (UI.idle "SGVsbG8=".toList)).ui.inputValue ≠ [] ∧
    ∃ s2, runSchedule (decodeText (Sys.initial (UI.idle "SGVsbG8=".toList)))
        [.advance 1000, .timer (Sys.initial (UI.idle "SGVsbG8=".toList)).timers.length,
          .response (Sys.initial (UI.idle "SGVsbG8=".toList)).inflight.length
            (.networkError "Failed to fetch".toList)] = some s2 ∧
      s2.ui.loadingHidden = true ∧ s2.ui.analyzeDisabled = false ∧
      s2.ui.decodeDisabled = false :=
  ⟨by decide,
   (operation_restores_controls (Sys.initial (UI.idle "SGVsbG8=".toList))
      (.networkError "Failed to fetch".toList) (by decide)).2.1⟩

theorem finishRequest_notOk (s : Sys) (kind : OpKind) (status : Nat) (body : Body)
    (h : responseOk status = false) :
    (finishRequest s kind (.json status body)).ui.errorText =
      match kind with
      | .analyze => "Analysis failed: ".toList ++ errorOr body.error "Analysis failed.".toList
      | .decode => "Decoding failed: ".toList ++ errorOr body.error "Decoding failed.".toList := by
  cases kind <;> simp [finishRequest, analyzeTry, decodeTry, h, showError, hideLoading]

theorem finishRequest_invalidJson (s : Sys) (kind : OpKind) (status : Nat) (message : JsString) :
    (finishRequest s kind (.invalidJson status message)).ui.errorText =
      match kind with
      | .analyze => "Analysis failed: ".toList ++ message
      | .decode => "Decoding failed: ".toList ++ message := by
  cases kind <;> simp [finishRequest, analyzeTry, decodeTry, showError, hideLoading]

theorem finishRequest_jsonNull (s : Sys) (kind : OpKind) (status : Nat)
    (h : responseOk status = false) :
    (finishRequest s kind (.jsonNull status)).ui.errorText =
      match kind with
      | .analyze => "Analysis failed: ".toList ++ nullTypeErrorMessage "error".toList
      | .decode => "Decoding failed: ".toList ++ nullTypeErrorMessage "error".toList := by
  cases kind <;> simp [finishRequest, analyzeTry, decodeTry, h, showError, hideLoading]

/-- C6, as amended. For a response whose status is not ok, the banner text is
the prefix (`Analysis failed: ` or `Decoding failed: `) followed by: the
body's `error` string when the body is a JSON value other than `null` and that
string is not empty; the generic message (`Analysis failed.` or
`Decoding failed.`) when such a body has no `error` property, or the property
holds the empty string, `null`, `false` or zero; the property converted to a
string when it holds a truthy value of another type; the message with which
`response.json()` rejects when the body is not JSON; the message of the
TypeError of reading `error` of `null` when the body is the JSON text `null`. -/
theorem notOk_banner_text (s : Sys) (status : Nat) (h : responseOk status = false) :
    (∀ (body : Body) (e : JsString), body.error = some (.string e) → e ≠ [] →
      (finishRequest s .analyze (.json status body)).ui.errorText =
        "Analysis failed: ".toList ++ e ∧
      (finishRequest s .decode (.json status body)).ui.errorText =
        "Decoding failed: ".toList ++ e) ∧
    (∀ body : Body,
      body.error = none ∨ body.error = some (.string []) ∨ body.error = some .null ∨
        body.error = some (.bool false) ∨ (∃ shown, body.error = some (.number true shown)) →
      (finishRequest s .analyze (.json status body)).ui.errorText =
        "Analysis failed: Analysis failed.".toList ∧
      (finishRequest s .decode (.json status body)).ui.errorText =
        "Decoding failed: Decoding failed.".toList) ∧
    (∀ (body : Body) (shown : JsString),
      body.error = some (.number false shown) ∨ body.error = some (.array shown) ∨
        (body.error = some (.bool true) ∧ shown = "true".toList) ∨
        (body.error = some .object ∧ shown = "[object Object]".toList) →
      (finishRequest s .analyze (.json status body)).ui.errorText =
        "Analysis failed: ".toList ++ shown ∧
      (finishRequest s .decode (.json status body)).ui.errorText =
        "Decoding failed: ".toList ++ shown) ∧
    (∀ message : JsString,
      (finishRequest s .analyze (.invalidJson status message)).ui.errorText =
        "Analysis failed: ".toList ++ message ∧
      (finishRequest s .decode (.invalidJson status message)).ui.errorText =
        "Decoding failed: ".toList ++ message) ∧
    ((finishRequest s .analyze (.jsonNull status)).ui.errorText =
        "Analysis failed: Cannot read properties of null (reading \x27error\x27)".toList ∧
      (finishRequest s .decode (.jsonNull status)).ui.errorText =
        "Decoding failed: Cannot read properties of null (reading \x27error\x27)".toList) ∧
    (∀ (kind : OpKind) (o : FetchOutcome),
      (∃ body, o = .json status body) ∨ (∃ message, o = .invalidJson status message) ∨
        o = .jsonNull status →
      (finishRequest s kind o).ui.errorHidden = false) := by
  refine ⟨fun body e he hne => ?_, fun body hb => ?_, fun body shown hb => ?_,
    fun message => ?_, ?_, fun kind o ho => ?_⟩
  · rw [finishRequest_notOk _ _ _ _ h, finishRequest_notOk _ _ _ _ h]
    simp [errorOr, he, hne, JsonValue.truthy, JsonValue.toJsString]
  · rw [finishRequest_notOk _ _ _ _ h, finishRequest_notOk _ _ _ _ h]
    rcases hb with he | he | he | he | ⟨shown, he⟩ <;>
      simp only [errorOr, he, JsonValue.truthy, Bool.not_true, Bool.false_eq_true, if_false,
        List.isEmpty_nil] <;>
      exact ⟨by decide, by decide⟩
  · rw [finishRequest_notOk _ _ _ _ h, finishRequest_notOk _ _ _ _ h]
    rcases hb with he | he | ⟨he, rfl⟩ | ⟨he, rfl⟩ <;>
      simp [errorOr, he, JsonValue.truthy, JsonValue.toJsString]
  · rw [finishRequest_invalidJson, finishRequest_invalidJson]
    exact ⟨rfl, rfl⟩
  · rw [finishRequest_jsonNull _ _ _ h, finishRequest_jsonNull _ _ _ h]
    exact ⟨by decide, by decide⟩
  · rcases ho with ⟨body, rfl⟩ | ⟨message, rfl⟩ | rfl <;> cases kind <;>
      simp [finishRequest, analyzeTry, decodeTry, h, showError, hideLoading]

/-- Witness of C6: status 500 with body `\x7b"error": "engine unavailable"\x7d`
gives `Decoding failed: engine unavailable`. -/
theorem notOk_banner_text_witness :
    responseOk 500 = false ∧
    (finishRequest (Sys.initial (UI.idle "SGVsbG8=".toList)) .decode
      (.json 500 ⟨some (.string "engine unavailable".toList), none, none, none⟩)).ui.errorText =
        "Decoding failed: engine unavailable".toList :=
  ⟨by decide,
   ((notOk_banner_text (Sys.initial (UI.idle "SGVsbG8=".toList)) 500 (by decide)).1
      ⟨some (.string "engine unavailable".toList), none, none, none⟩
      "engine unavailable".toList rfl (by decide)).2⟩

/-- C6 as stated fails for the empty error string: status 500 with body
`\x7b"error": ""\x7d` gives `Decoding failed: Decoding failed.` and
`Analysis failed: Analysis failed.`, not the prefix followed by the empty
string. -/
theorem empty_error_string_falls_back :
    (finishRequest (Sys.initial (UI.idle "SGVsbG8=".toList)) .decode
      (.json 500 ⟨some (.string []), none, none, none⟩)).ui.errorText =
        "Decoding failed: Decoding failed.".toList ∧
    (finishRequest (Sys.initial (UI.idle "SGVsbG8=".toList)) .decode
      (.json 500 ⟨some (.string []), none, none, none⟩)).ui.errorText ≠
        "Decoding failed: ".toList ++ [] ∧
    (finishRequest (Sys.initial (UI.idle "SGVsbG8=".toList)) .analyze
      (.json 500 ⟨some (.string []), none, none, none⟩)).ui.errorText =
        "Analysis failed: Analysis failed.".toList ∧
    (finishRequest (Sys.initial (UI.idle "SGVsbG8=".toList)) .analyze
      (.json 500 ⟨some (.string []), none, none, none⟩)).ui.errorText ≠
        "Analysis failed: ".toList ++ [] := by
  refine ⟨?_, ?_, ?_, ?_⟩ <;> decide

/-- C8 fails on the code. `showError` at time 0, a second `showError` 3000 ms
later: the timer of the first call is still pending and, fired at 5000 ms,
hides the banner that shows the second message, 2000 ms after it appeared; the
timer of the second call (due at 8000 ms) is still pending then. -/
theorem stale_timer_hides_second_error :
    ((((step (showError (Sys.initial (UI.idle [])) "first".toList) (.advance 3000)).map
        (fun s => showError s "second".toList)).bind
        (fun s => runSchedule s [.advance 2000, .timer 0])).map
        (fun s => (s.now, s.ui.errorHidden, s.ui.errorText, s.timers.map Timer.due))) =
      some (5000, true, "second".toList, [8000]) := by
  decide

theorem panels_step (s : Sys) (op : Operation)
    (h : (s.ui.analysisHidden || s.ui.resultsHidden) = true) :
    ((op.run s).ui.analysisHidden || (op.run s).ui.resultsHidden) = true := by
  cases op with
  | showAnalysis => simp [Operation.run, showAnalysis]
  | showResults => simp [Operation.run, showResults]
  | displayAnalysis data =>
    simp only [Operation.run, displayAnalysis]
    cases data.analysis with
    | none => exact h
    | some a =>
      cases data.detections with
      | none => exact h
      | some ds => simp [showAnalysis]
  | displayResults results =>
    simp only [Operation.run, displayResults]
    cases results with
    | none => exact h
    | some rs => simp [showResults]
  | showLoading => exact h
  | hideLoading => exact h
  | showError message => exact h
  | hideError => exact h

theorem panels_run (ops : List Operation) (s : Sys)
    (h : (s.ui.analysisHidden || s.ui.resultsHidden) = true) :
    ((runOperations s ops).ui.analysisHidden || (runOperations s ops).ui.resultsHidden) = true := by
  induction ops generalizing s with
  | nil => exact h
  | cons op ops ih => exact ih (op.run s) (panels_step s op h)

/-- C10. From a page where the analysis panel and the results panel are both
hidden, every sequence of controller operations leaves at least one of the two
hidden; `showError` and `hideError` change the visibility of neither. -/
theorem at_most_one_panel_visible (s : Sys) (ops : List Operation)
    (ha : s.ui.analysisHidden = true) (hr : s.ui.resultsHidden = true) :
    ((runOperations s ops).ui.analysisHidden = true ∨
      (runOperations s ops).ui.resultsHidden = true) ∧
    (∀ (t : Sys) (message : JsString),
      (Operation.run t (.showError message)).ui.analysisHidden = t.ui.analysisHidden ∧
      (Operation.run t (.showError message)).ui.resultsHidden = t.ui.resultsHidden ∧
      (Operation.run t .hideError).ui.analysisHidden = t.ui.analysisHidden ∧
      (Operation.run t .hideError).ui.resultsHidden = t.ui.resultsHidden) := by
  refine ⟨?_, fun t message => ⟨rfl, rfl, rfl, rfl⟩⟩
  have := panels_run ops s (by simp [ha, hr])
  simpa using this

/-- Witness of C10: results shown, an error raised, then an analysis shown. -/
theorem at_most_one_panel_visible_witness :
    (Sys.initial (UI.idle [])).ui.analysisHidden = true ∧
    (Sys.initial (UI.idle [])).ui.resultsHidden = true ∧
    ((runOperations (Sys.initial (UI.idle []))
        [.displayResults (some []), .showError "x".toList,
          .displayAnalysis ⟨none, some ⟨"1".toList, [], "0".toList, []⟩, some [], none⟩]).ui.analysisHidden
        = true ∨
      (runOperations (Sys.initial (UI.idle []))
        [.displayResults (some []), .showError "x".toList,
          .displayAnalysis ⟨none, some ⟨"1".toList, [], "0".toList, []⟩, some [], none⟩]).ui.resultsHidden
        = true) :=
  ⟨rfl, rfl,
   (at_most_one_panel_visible (Sys.initial (UI.idle []))
      [.displayResults (some []), .showError "x".toList,
        .displayAnalysis ⟨none, some ⟨"1".toList, [], "0".toList, []⟩, some [], none⟩]
      rfl rfl).1⟩

theorem countP_eraseIdx_add {α : Type} (p : α → Bool) (l : List α) (i : Nat) (a : α)
    (h : l[i]? = some a) :
    (l.eraseIdx i).countP p + (if p a then 1 else 0) = l.countP p := by
  induction l generalizing i with
  | nil => simp at h
  | cons x l ih =>
    cases i with
    | zero =>
      simp only [List.getElem?_cons_zero, Option.some.injEq] at h
      subst h
      simp [List.countP_cons]
    | succ i =>
      simp only [List.getElem?_cons_succ] at h
      simp only [List.eraseIdx_cons_succ, List.countP_cons]
      have := ih i h
      omega

theorem accounted_initial (ui : UI) : Accounted (Sys.initial ui) := by
  refine ⟨?_, ?_, ?_⟩ <;> simp [Sys.initial]

theorem accounted_of_same (s s2 : Sys) (h : Accounted s)
    (ht : s2.timers = s.timers ∨ s2.timers = s.timers ++ [⟨s.now + 5000, .hideError⟩])
    (hr : s2.requests = s.requests) (hn : s2.nextOp = s.nextOp) : Accounted s2 := by
  obtain ⟨h1, h2, h3⟩ := h
  refine ⟨?_, ?_, ?_⟩
  · intro t htm kind op st text hc
    rw [hn]
    rcases ht with ht | ht
    · rw [ht] at htm; exact h1 t htm kind op st text hc
    · rw [ht, List.mem_append] at htm
      rcases htm with htm | htm
      · exact h1 t htm kind op st text hc
      · simp only [List.mem_singleton] at htm
        rw [htm] at hc
        cases hc
  · rw [hr, hn]; exact h2
  · intro op hop
    rw [hn] at hop
    have := h3 op hop
    unfold pendingDelays requestsOf at *
    rw [hr]
    rcases ht with ht | ht
    · rw [ht]; exact this
    · rw [ht, List.countP_append]
      simpa [Timer.resumes] using this

theorem accounted_start (s : Sys) (kind : OpKind) (text : JsString) (ui : UI)
    (h : Accounted s) :
    Accounted { s with
      ui := ui
      timers := s.timers ++ [⟨s.now + 1000, .resume kind s.nextOp s.now text⟩]
      nextOp := s.nextOp + 1 } := by
  obtain ⟨h1, h2, h3⟩ := h
  refine ⟨?_, ?_, ?_⟩
  · intro t htm k op st tx hc
    simp only [List.mem_append, List.mem_singleton] at htm
    rcases htm with htm | htm
    · have := h1 t htm k op st tx hc
      exact ⟨by show op < s.nextOp + 1; omega, this.2⟩
    · rw [htm] at hc
      simp only [Callback.resume.injEq] at hc
      obtain ⟨_, h5, h6, _⟩ := hc
      rw [htm]
      exact ⟨by show op < s.nextOp + 1; omega, by show s.now + 1000 = st + 1000; omega⟩
  · intro r hr
    have := h2 r hr
    exact ⟨by show r.op < s.nextOp + 1; omega, this.2⟩
  · intro op hop
    have hop2 : op < s.nextOp + 1 := hop
    show List.countP (Timer.resumes op)
        (s.timers ++ [⟨s.now + 1000, .resume kind s.nextOp s.now text⟩]) +
      List.countP (fun r => r.op = op) s.requests = 1
    rw [List.countP_append]
    by_cases hlt : op < s.nextOp
    · have := h3 op hlt
      unfold pendingDelays requestsOf at this
      have hne : ¬ s.nextOp = op := by omega
      simp only [List.countP_cons, List.countP_nil, Timer.resumes, decide_eq_true_eq, hne,
        if_false]
      omega
    · have heq : op = s.nextOp := by omega
      have ht0 : List.countP (Timer.resumes op) s.timers = 0 := by
        rw [List.countP_eq_zero]
        intro t htm
        cases hc : t.callback with
        | hideError => simp [Timer.resumes, hc]
        | resume k o st tx =>
          have := (h1 t htm k o st tx hc).1
          simp only [Timer.resumes, hc, decide_eq_true_eq]
          omega
      have hr0 : List.countP (fun r => decide (r.op = op)) s.requests = 0 := by
        rw [List.countP_eq_zero]
        intro r hr
        have := (h2 r hr).1
        simp only [decide_eq_true_eq]
        omega
      rw [ht0, hr0]
      simp [Timer.resumes, heq]

theorem accounted_fire (s : Sys) (i : Nat) (t : Timer) (h : Accounted s)
    (ht : s.timers[i]? = some t) (hdue : t.due ≤ s.now) :
    Accounted (runCallback { s with timers := s.timers.eraseIdx i } t.callback) := by
  obtain ⟨h1, h2, h3⟩ := h
  have hmem : t ∈ s.timers := List.getElem?_mem ht
  cases hc : t.callback with
  | hideError =>
    refine ⟨?_, h2, ?_⟩
    · intro t2 htm
      exact h1 t2 (List.mem_of_mem_eraseIdx htm)
    · intro op hop
      have := h3 op hop
      have hcnt := countP_eraseIdx_add (Timer.resumes op) s.timers i t ht
      have hf : Timer.resumes op t = false := by simp [Timer.resumes, hc]
      rw [hf] at hcnt
      unfold pendingDelays requestsOf at *
      simp only [runCallback]
      simp only [Bool.false_eq_true, if_false, Nat.add_zero] at hcnt
      rw [hcnt]; exact this
  | resume kind k st text =>
    have hk := h1 t hmem kind k st text hc
    refine ⟨?_, ?_, ?_⟩
    · intro t2 htm
      exact h1 t2 (List.mem_of_mem_eraseIdx htm)
    · intro r hr
      simp only [runCallback, issueRequest, List.mem_append, List.mem_singleton] at hr
      rcases hr with hr | hr
      · exact h2 r hr
      · rw [hr]
        exact ⟨hk.1, by show st + 1000 ≤ s.now; omega⟩
    · intro op hop
      have hop2 : op < s.nextOp := hop
      have := h3 op hop2
      have hcnt := countP_eraseIdx_add (Timer.resumes op) s.timers i t ht
      unfold pendingDelays requestsOf at *
      simp only [runCallback, issueRequest, List.countP_append, List.countP_cons,
        List.countP_nil]
      by_cases hko : k = op
      · have hf : Timer.resumes op t = true := by simp [Timer.resumes, hc, hko]
        rw [hf] at hcnt
        simp only [if_true] at hcnt
        simp only [hko, decide_True, if_true]
        omega
      · have hf : Timer.resumes op t = false := by simp [Timer.resumes, hc, hko]
        rw [hf] at hcnt
        simp only [Bool.false_eq_true, if_false, Nat.add_zero] at hcnt
        simp only [hko, decide_False, Bool.false_eq_true, if_false]
        omega

theorem showError_shape (s : Sys) (m : JsString) :
    (showError s m).timers = s.timers ++ [⟨s.now + 5000, .hideError⟩] ∧
    (showError s m).requests = s.requests ∧ (showError s m).nextOp = s.nextOp ∧
    (showError s m).now = s.now :=
  ⟨rfl, rfl, rfl, rfl⟩

theorem accounted_begin (s : Sys) (kind : OpKind) (h : Accounted s) :
    Accounted (startOperation s kind) := by
  cases kind with
  | analyze =>
    simp only [startOperation, analyzeText]
    split_ifs with hb
    · exact accounted_of_same s _ h (Or.inr rfl) rfl rfl
    · exact accounted_start s .analyze _ _ h
  | decode =>
    simp only [startOperation, decodeText]
    split_ifs with hb
    · exact accounted_of_same s _ h (Or.inr rfl) rfl rfl
    · exact accounted_start s .decode _ _ h

theorem finishRequest_shape (s : Sys) (kind : OpKind) (o : FetchOutcome) :
    ((finishRequest s kind o).timers = s.timers ∨
      (finishRequest s kind o).timers = s.timers ++ [⟨s.now + 5000, .hideError⟩]) ∧
    (finishRequest s kind o).requests = s.requests ∧
    (finishRequest s kind o).nextOp = s.nextOp := by
  unfold finishRequest
  simp only
  split
  · exact ⟨Or.inr rfl, rfl, rfl⟩
  · exact ⟨Or.inl rfl, rfl, rfl⟩

theorem accounted_step (s s2 : Sys) (e : Event) (h : Accounted s) (hs : step s e = some s2) :
    Accounted s2 := by
  cases e with
  | advance ms =>
    simp only [step, Option.some.injEq] at hs
    rw [← hs]; exact h
  | input v =>
    simp only [step, Option.some.injEq] at hs
    rw [← hs]; exact h
  | selectDecoder v =>
    simp only [step, Option.some.injEq] at hs
    rw [← hs]; exact h
  | slide v =>
    simp only [step, Option.some.injEq] at hs
    rw [← hs]; exact h
  | clickAnalyze =>
    simp only [step] at hs
    split_ifs at hs
    rw [← Option.some.inj hs]
    exact accounted_begin s .analyze h
  | clickDecode =>
    simp only [step] at hs
    split_ifs at hs
    rw [← Option.some.inj hs]
    exact accounted_begin s .decode h
  | ctrlEnter =>
    simp only [step] at hs
    rw [← Option.some.inj hs]
    exact accounted_begin s .decode h
  | timer i =>
    simp only [step] at hs
    cases ht : s.timers[i]? with
    | none => rw [ht] at hs; cases hs
    | some t =>
      rw [ht] at hs
      simp only at hs
      split_ifs at hs with hdue
      rw [← Option.some.inj hs]
      exact accounted_fire s i t h ht hdue
  | response i o =>
    simp only [step] at hs
    cases hr : s.inflight[i]? with
    | none => rw [hr] at hs; cases hs
    | some r =>
      rw [hr] at hs
      rw [← Option.some.inj hs]
      have hsh := finishRequest_shape { s with inflight := s.inflight.eraseIdx i } r.kind o
      exact accounted_of_same s _ h hsh.1 hsh.2.1 hsh.2.2

theorem accounted_run (es : List Event) (s s2 : Sys) (h : Accounted s)
    (hs : runSchedule s es = some s2) : Accounted s2 := by
  induction es generalizing s with
  | nil =>
    simp only [runSchedule, Option.some.injEq] at hs
    rw [← hs]; exact h
  | cons e es ih =>
    simp only [runSchedule] at hs
    cases h1 : step s e with
    | none => rw [h1] at hs; cases hs
    | some s1 =>
      rw [h1] at hs
      exact ih s1 (accounted_step s s1 e h h1) hs

theorem disabled_begin (s : Sys) (kind : OpKind)
    (h : s.ui.analyzeDisabled = true ∧ s.ui.decodeDisabled = true) :
    (startOperation s kind).ui.analyzeDisabled = true ∧
    (startOperation s kind).ui.decodeDisabled = true := by
  cases kind with
  | analyze =>
    simp only [startOperation, analyzeText]
    split_ifs with hb
    · exact h
    · exact ⟨rfl, rfl⟩
  | decode =>
    simp only [startOperation, decodeText]
    split_ifs with hb
    · exact h
    · exact ⟨rfl, rfl⟩

theorem disabled_step (s s2 : Sys) (e : Event) (he : e.isResponse = false)
    (h : s.ui.analyzeDisabled = true ∧ s.ui.decodeDisabled = true)
    (hs : step s e = some s2) :
    s2.ui.analyzeDisabled = true ∧ s2.ui.decodeDisabled = true := by
  cases e with
  | advance ms =>
    simp only [step, Option.some.injEq] at hs
    rw [← hs]; exact h
  | input v =>
    simp only [step, Option.some.injEq] at hs
    rw [← hs]; exact h
  | selectDecoder v =>
    simp only [step, Option.some.injEq] at hs
    rw [← hs]; exact h
  | slide v =>
    simp only [step, Option.some.injEq] at hs
    rw [← hs]; exact h
  | clickAnalyze =>
    simp only [step] at hs
    split_ifs at hs
    rw [← Option.some.inj hs]
    exact disabled_begin s .analyze h
  | clickDecode =>
    simp only [step] at hs
    split_ifs at hs
    rw [← Option.some.inj hs]
    exact disabled_begin s .decode h
  | ctrlEnter =>
    simp only [step] at hs
    rw [← Option.some.inj hs]
    exact disabled_begin s .decode h
  | timer i =>
    simp only [step] at hs
    cases ht : s.timers[i]? with
    | none => rw [ht] at hs; cases hs
    | some t =>
      rw [ht] at hs
      simp only at hs
      split_ifs at hs with hdue
      rw [← Option.some.inj hs]
      cases t.callback <;> exact h
  | response i o => cases he

theorem disabled_run (es : List Event) (s s2 : Sys)
    (he : ∀ e ∈ es, e.isResponse = false)
    (h : s.ui.analyzeDisabled = true ∧ s.ui.decodeDisabled = true)
    (hs : runSchedule s es = some s2) :
    s2.ui.analyzeDisabled = true ∧ s2.ui.decodeDisabled = true := by
  induction es generalizing s with
  | nil =>
    simp only [runSchedule, Option.some.injEq] at hs
    rw [← hs]; exact h
  | cons e es ih =>
    simp only [runSchedule] at hs
    cases h1 : step s e with
    | none => rw [h1] at hs; cases hs
    | some s1 =>
      rw [h1] at hs
      exact ih s1 (fun x hx => he x (by simp [hx]))
        (disabled_step s s1 e (he e (by simp)) h h1) hs

theorem begin_nonblank (s : Sys) (kind : OpKind) (h : trim s.ui.inputValue ≠ []) :
    startOperation s kind =
    { s with
      ui := hideError (showLoading s.ui)
      timers := s.timers ++ [⟨s.now + 1000, .resume kind s.nextOp s.now (trim s.ui.inputValue)⟩]
      nextOp := s.nextOp + 1 } := by
  cases kind with
  | analyze => simp only [startOperation, analyzeText, if_neg h]
  | decode => simp only [startOperation, decodeText, if_neg h]

theorem step_starts (s s1 : Sys) (e : Event) (kind : OpKind) (hk : e.starts = some kind)
    (hs : step s e = some s1) :
    s1 = startOperation s kind := by
  cases e <;> simp only [Event.starts, Option.some.injEq] at hk <;> try cases hk
  · simp only [step] at hs
    split_ifs at hs
    exact (Option.some.inj hs).symm
  · simp only [step] at hs
    split_ifs at hs
    exact (Option.some.inj hs).symm
  · simp only [step] at hs
    exact (Option.some.inj hs).symm

/-- C7, as amended. In every state reached by a schedule from page load:
every operation started has either its one-second delay pending and no
request issued, or no delay pending and exactly one request issued; every
request was issued at least 1000 ms after its operation started; an operation
started now on a non-blank input gets the next number, with its delay pending
and no request issued; and both buttons are disabled in every state reached
from its start by events none of which is the end of a request. -/
theorem one_request_after_delay (ui : UI) (es : List Event) (s : Sys)
    (h : runSchedule (Sys.initial ui) es = some s) :
    (∀ op < s.nextOp, pendingDelays s op + requestsOf s op = 1) ∧
    (∀ r ∈ s.requests, r.startedAt + 1000 ≤ r.issuedAt) ∧
    (∀ (e : Event) (kind : OpKind) (s1 : Sys), e.starts = some kind →
      trim s.ui.inputValue ≠ [] → step s e = some s1 →
      s1.nextOp = s.nextOp + 1 ∧ pendingDelays s1 s.nextOp = 1 ∧ requestsOf s1 s.nextOp = 0 ∧
      ∀ (es2 : List Event) (s2 : Sys), (∀ e2 ∈ es2, e2.isResponse = false) →
        runSchedule s1 es2 = some s2 →
        s2.ui.analyzeDisabled = true ∧ s2.ui.decodeDisabled = true) := by
  have hacc := accounted_run es _ s (accounted_initial ui) h
  refine ⟨hacc.2.2, fun r hr => (hacc.2.1 r hr).2, ?_⟩
  intro e kind s1 hk hnb hs
  have h1 := step_starts s s1 e kind hk hs
  rw [begin_nonblank s kind hnb] at h1
  have hacc1 : Accounted s1 := accounted_step s s1 e hacc hs
  have hn : s1.nextOp = s.nextOp + 1 := by rw [h1]
  have hp : pendingDelays s1 s.nextOp = 1 := by
    have hr0 : requestsOf s1 s.nextOp = 0 := by
      unfold requestsOf
      rw [List.countP_eq_zero]
      intro r hr
      have hr2 : r ∈ s.requests := by rw [h1] at hr; exact hr
      have := (hacc.2.1 r hr2).1
      simp only [decide_eq_true_eq]
      omega
    have := hacc1.2.2 s.nextOp (by omega)
    omega
  have hr0 : requestsOf s1 s.nextOp = 0 := by
    have := hacc1.2.2 s.nextOp (by omega)
    omega
  refine ⟨hn, hp, hr0, ?_⟩
  intro es2 s2 hno hrun
  exact disabled_run es2 s1 s2 hno (by rw [h1]; exact ⟨rfl, rfl⟩) hrun

/-- Witness of C7 as amended: one decode operation on `abc`, its delay
elapsed and its timer fired. -/
theorem one_request_after_delay_witness :
    ∃ s, runSchedule (Sys.initial (UI.idle "abc".toList))
        [.ctrlEnter, .advance 1000, .timer 0] = some s ∧
      (∀ op < s.nextOp, pendingDelays s op + requestsOf s op = 1) ∧
      (∀ r ∈ s.requests, r.startedAt + 1000 ≤ r.issuedAt) :=
  ⟨_, rfl,
    (one_request_after_delay (UI.idle "abc".toList) [.ctrlEnter, .advance 1000, .timer 0] _
      rfl).1,
    (one_request_after_delay (UI.idle "abc".toList) [.ctrlEnter, .advance 1000, .timer 0] _
      rfl).2.1⟩

/-- C7 as stated fails. Two decode operations started through Ctrl+Enter at
0 ms and 500 ms; the first one's request is issued at 1000 ms and answered:
handling that response enables both buttons while the second operation has
not issued its request yet. -/
theorem buttons_enabled_while_operation_pending :
    (runSchedule (Sys.initial (UI.idle "abc".toList))
        [.ctrlEnter, .advance 500, .ctrlEnter, .advance 500, .timer 0,
          .response 0 (.json 200 ⟨none, none, none, some []⟩)]).map
        (fun s => (s.now, pendingDelays s 1, requestsOf s 1, s.ui.analyzeDisabled,
          s.ui.decodeDisabled)) =
      some (1000, 1, 0, false, false) := by
  decide

theorem roundHalfEven_nonneg (y : ℚ) (h : 0 ≤ y) : 0 ≤ roundHalfEven y := by
  have hf : 0 ≤ ⌊y⌋ := Int.floor_nonneg.2 h
  unfold roundHalfEven
  split_ifs <;> omega

theorem roundHalfEven_le (y : ℚ) (N : ℤ) (h : y ≤ N) : roundHalfEven y ≤ N := by
  have hf : ⌊y⌋ ≤ N := Int.floor_le_iff.2 (by linarith [Int.floor_le y] : y < N + 1) |> fun h => by
    exact h
  by_cases hlt : ⌊y⌋ < N
  · unfold roundHalfEven
    split_ifs <;> omega
  · have heq : ⌊y⌋ = N := by omega
    have hy : y = N := le_antisymm h (by rw [← heq]; exact Int.floor_le y)
    unfold roundHalfEven
    rw [if_pos]
    · omega
    · rw [hy]; simp

theorem ulpExponent_bounds (x : ℚ) (h0 : 0 ≤ x) (h1 : x ≤ 100) :
    -1074 ≤ ulpExponent x ∧ ulpExponent x ≤ -46 := by
  unfold ulpExponent
  have hlog : Int.log 2 |x| ≤ 6 := by
    rw [abs_of_nonneg h0]
    rcases h0.eq_or_lt with h | h
    · rw [← h]; simp
    · have : Int.log 2 x < 7 := by
        rw [← Int.lt_zpow_iff_log_lt (by norm_num) h]
        norm_num
        linarith
      omega
  constructor
  · exact le_max_right _ _
  · exact max_le (by omega) (by norm_num)

theorem roundToDouble_range (x : ℚ) (h0 : 0 ≤ x) (h1 : x ≤ 100) :
    0 ≤ roundToDouble x ∧ roundToDouble x ≤ 100 := by
  obtain ⟨hk1, hk2⟩ := ulpExponent_bounds x h0 h1
  unfold roundToDouble
  generalize ulpExponent x = k at hk1 hk2
  obtain ⟨m, rfl⟩ : ∃ m : ℕ, k = -(m : ℤ) := ⟨k.natAbs, by omega⟩
  have hpos : (0 : ℚ) < 2 ^ (-(m : ℤ)) := by positivity
  have hy0 : 0 ≤ x / 2 ^ (-(m : ℤ)) := div_nonneg h0 hpos.le
  have hyN : x / 2 ^ (-(m : ℤ)) ≤ ((100 * 2 ^ m : ℤ) : ℚ) := by
    rw [div_le_iff₀ hpos]
    push_cast
    rw [zpow_neg, zpow_natCast, mul_assoc, mul_inv_cancel₀ (by positivity), mul_one]
    exact h1
  have hr0 := roundHalfEven_nonneg _ hy0
  have hrN := roundHalfEven_le _ _ hyN
  constructor
  · exact mul_nonneg (by exact_mod_cast hr0) hpos.le
  · have : ((roundHalfEven (x / 2 ^ (-(m : ℤ))) : ℤ) : ℚ) ≤ ((100 * 2 ^ m : ℤ) : ℚ) := by
      exact_mod_cast hrN
    calc (roundHalfEven (x / 2 ^ (-(m : ℤ))) : ℚ) * 2 ^ (-(m : ℤ))
        ≤ ((100 * 2 ^ m : ℤ) : ℚ) * 2 ^ (-(m : ℤ)) := mul_le_mul_of_nonneg_right this hpos.le
      _ = 100 := by
        push_cast
        rw [zpow_neg, zpow_natCast, mul_assoc, mul_inv_cancel₀ (by positivity), mul_one]

theorem jsMul_of_range (a b : ℚ) (h0 : 0 ≤ roundToDouble (a * b))
    (h1 : roundToDouble (a * b) ≤ 100) : jsMul a b = .finite (roundToDouble (a * b)) := by
  have hbig : (100 : ℚ) < overflowBound := by unfold overflowBound; norm_num
  have hp : (0 : ℚ) < overflowBound := by unfold overflowBound; positivity
  have hA : ¬ overflowBound ≤ roundToDouble (a * b) := by linarith
  have hB : ¬ overflowBound ≤ -roundToDouble (a * b) := by linarith
  unfold jsMul
  rw [if_neg hA, if_neg hB]

/-- For a confidence in `[0, 1]` the percentage is an integer from 0 to 100. -/
theorem confidencePercentage_range (c : ℚ) (h0 : 0 ≤ c) (h1 : c ≤ 1) :
    ∃ n : ℕ, n ≤ 100 ∧ confidencePercentage c = .int n := by
  obtain ⟨hr0, hr1⟩ := roundToDouble_range (c * 100) (by linarith) (by linarith)
  have hf0 : 0 ≤ ⌊roundToDouble (c * 100) + 1 / 2⌋ := Int.floor_nonneg.2 (by linarith)
  have hf1 : ⌊roundToDouble (c * 100) + 1 / 2⌋ ≤ 100 := by
    have : ⌊roundToDouble (c * 100) + 1 / 2⌋ < 101 := by
      rw [Int.floor_lt]; push_cast; linarith
    omega
  refine ⟨⌊roundToDouble (c * 100) + 1 / 2⌋.toNat, by omega, ?_⟩
  unfold confidencePercentage
  rw [jsMul_of_range c 100 hr0 hr1]
  simp only [mathRound]
  congr 1
  omega

theorem createDetectionItem_eq (d : Detection) :
    createDetectionItem d =
      .elem "div".toList [("class".toList, "detection-item".toList)] (detectionChildren d) := by
  unfold createDetectionItem setInnerHTML
  rw [parseFragment_detectionMarkup]; rfl

theorem createResultItem_eq (r : DecodeOutcome) (index : Nat) :
    createResultItem r index =
      .elem "div".toList
        [("class".toList, "result-item ".toList ++ (if r.success then [] else "error".toList))]
        (resultChildren r index) := by
  unfold createResultItem setInnerHTML
  rw [parseFragment_resultMarkup]; rfl

theorem parseFragment_message (msg : JsString) (h : ∀ c ∈ msg, isPlain c = true)
    (hne : msg ≠ []) :
    parseFragment ("<p class=\"text-muted\">".toList ++ (msg ++ ("</p>".toList ++ []))) =
      some [.elem "p".toList [("class".toList, "text-muted".toList)] [.text msg]] := by
  have hp := plain_props msg h
  rw [parseFragment_eq_run]
  unfold PState.init
  rw [run_open [[]] "p".toList [("class".toList, "text-muted".toList)] _ _ _ _ _
    (by decide) (by decide) (by decide) (by decide) (by rfl)]
  rw [run_lit_then _ _ _ _ _ _ hp.1 hp.2.1 hne (by rfl)]
  rw [run_close_then _ _ _ _ _ _ _ _ _ _ (by decide) (by decide) (by decide)]
  simp only [PState.run, Option.some_bind, PState.finish, Tokenizer.start, if_true,
    List.reverse_cons, List.reverse_nil, List.nil_append, List.cons_append, cookNodes,
    cookNode, cookText_plain _ hp.2.2.1 hp.2.2.2.1, Option.map_some']
  simp [hne]

theorem setInnerHTML_noResults :
    setInnerHTML noResultsMarkup =
      [.elem "p".toList [("class".toList, "text-muted".toList)]
        [.text "No results found".toList]] := by
  have h : noResultsMarkup =
      "<p class=\"text-muted\">".toList ++ ("No results found".toList ++ ("</p>".toList ++ [])) := by
    decide
  unfold setInnerHTML
  rw [h, parseFragment_message _ (by decide) (by decide)]
  rfl

theorem setInnerHTML_noDetections :
    setInnerHTML noDetectionsMarkup =
      [.elem "p".toList [("class".toList, "text-muted".toList)]
        [.text "No encodings detected above threshold".toList]] := by
  have h : noDetectionsMarkup =
      "<p class=\"text-muted\">".toList ++
        ("No encodings detected above threshold".toList ++ ("</p>".toList ++ [])) := by
    decide
  unfold setInnerHTML
  rw [h, parseFragment_message _ (by decide) (by decide)]
  rfl

theorem setInnerHTML_empty : setInnerHTML [] = [] := rfl

theorem selectAllIn_text (cls d : JsString) (ns : List Node) :
    selectAllIn cls (.text d :: ns) = selectAllIn cls ns := by
  simp [selectAllIn, Node.selectAll]

theorem selectAllIn_elem (cls tag : JsString) (attrs : List (JsString × JsString))
    (cs ns : List Node) :
    selectAllIn cls (.elem tag attrs cs :: ns) =
      (if hasClass attrs cls then [Node.elem tag attrs cs] else []) ++ selectAllIn cls cs ++
        selectAllIn cls ns := by
  simp [selectAllIn, Node.selectAll]

theorem selectAllIn_textNodes (cls t : JsString) : selectAllIn cls (textNodes t) = [] := by
  unfold textNodes
  split_ifs <;> simp [selectAllIn, Node.selectAll]

theorem selectAllIn_nil (cls : JsString) : selectAllIn cls [] = [] := by
  simp [selectAllIn]

theorem hasClass_single (v cls : JsString) :
    hasClass [("class".toList, v)] cls = (splitWords v).contains cls := by
  simp [hasClass, getAttr]

theorem hasClass_first (k v cls : JsString) (rest : List (JsString × JsString))
    (h : k = "class".toList) :
    hasClass ((k, v) :: rest) cls = (splitWords v).contains cls := by
  subst h
  simp [hasClass, getAttr]

theorem skeletonOf_text (d : JsString) (ns : List Node) :
    skeletonOf (.text d :: ns) = skeletonOf ns := by
  simp [skeletonOf, Node.skeleton]

theorem skeletonOf_elem (tag : JsString) (attrs : List (JsString × JsString))
    (cs ns : List Node) :
    skeletonOf (.elem tag attrs cs :: ns) = .elem tag attrs (skeletonOf cs) :: skeletonOf ns := by
  simp [skeletonOf, Node.skeleton]

theorem skeletonOf_textNodes (t : JsString) : skeletonOf (textNodes t) = [] := by
  unfold textNodes
  split_ifs <;> simp [skeletonOf, Node.skeleton]

theorem skeletonOf_nil : skeletonOf [] = [] := by simp [skeletonOf]

theorem textContentOf_textNodes (t : JsString) : textContentOf (textNodes t) = t := by
  unfold textNodes
  split_ifs with h <;> simp [textContentOf, Node.textContent, h]

theorem select_copyBtn (r : DecodeOutcome) (index : Nat) :
    selectAllIn "copy-btn".toList (resultChildren r index) =
      if r.success then [copyButton index] else [] := by
  unfold resultChildren copyButton
  cases r.success <;>
    simp +decide [selectAllIn_text, selectAllIn_elem, selectAllIn_textNodes, selectAllIn_nil,
      hasClass_single, hasClass_first]

theorem select_resultText (r : DecodeOutcome) (index : Nat) :
    selectAllIn "result-text".toList (resultChildren r index) =
      if r.success then
        [.elem "div".toList [("class".toList, "result-text".toList)]
          (textNodes (domText r.result))]
      else [] := by
  unfold resultChildren
  cases r.success <;>
    simp +decide [selectAllIn_text, selectAllIn_elem, selectAllIn_textNodes, selectAllIn_nil,
      hasClass_single, hasClass_first]

theorem select_resultItem_inside (r : DecodeOutcome) (index : Nat) :
    selectAllIn "result-item".toList (resultChildren r index) = [] := by
  unfold resultChildren
  cases r.success <;>
    simp +decide [selectAllIn_text, selectAllIn_elem, selectAllIn_textNodes, selectAllIn_nil,
      hasClass_single, hasClass_first]

theorem select_badge (d : Detection) :
    selectAllIn "confidence-badge".toList (detectionChildren d) =
      [.elem "span".toList [("class".toList, "confidence-badge".toList)]
        [.text ((confidencePercentage d.confidence).toJsString ++ "%".toList)]] := by
  unfold detectionChildren
  simp +decide [selectAllIn_text, selectAllIn_elem, selectAllIn_textNodes, selectAllIn_nil,
    hasClass_single, hasClass_first]

theorem select_detectionItem_inside (d : Detection) :
    selectAllIn "detection-item".toList (detectionChildren d) = [] := by
  unfold detectionChildren
  simp +decide [selectAllIn_text, selectAllIn_elem, selectAllIn_textNodes, selectAllIn_nil,
    hasClass_single, hasClass_first]

theorem select_resultItems (start : Nat) (rs : List DecodeOutcome) :
    selectAllIn "result-item".toList (resultItemsFrom start rs) = resultItemsFrom start rs := by
  induction rs generalizing start with
  | nil => simp [resultItemsFrom, selectAllIn]
  | cons r rs ih =>
    simp only [resultItemsFrom]
    rw [createResultItem_eq, selectAllIn_elem, select_resultItem_inside, ih, hasClass_single]
    cases r.success <;> simp +decide

theorem select_detectionItems (ds : List Detection) :
    selectAllIn "detection-item".toList (ds.map createDetectionItem) =
      ds.map createDetectionItem := by
  induction ds with
  | nil => simp [selectAllIn]
  | cons d ds ih =>
    simp only [List.map_cons]
    rw [createDetectionItem_eq, selectAllIn_elem, select_detectionItem_inside, ih,
      hasClass_single]
    simp +decide

theorem resultItemsFrom_getElem? (start : Nat) (rs : List DecodeOutcome) (i : Nat) :
    (resultItemsFrom start rs)[i]? = (rs[i]?).map (fun r => createResultItem r (start + i)) := by
  induction rs generalizing start i with
  | nil => simp [resultItemsFrom]
  | cons r rs ih =>
    cases i with
    | zero => simp [resultItemsFrom]
    | succ i =>
      simp only [resultItemsFrom, List.getElem?_cons_succ, ih]
      congr 1
      funext x
      congr 1
      omega

theorem resultItemsFrom_length (start : Nat) (rs : List DecodeOutcome) :
    (resultItemsFrom start rs).length = rs.length := by
  induction rs generalizing start with
  | nil => rfl
  | cons r rs ih => simp [resultItemsFrom, ih]

theorem digitChar_toNat (d : Nat) : (digitChar d).toNat - 48 = d % 10 := by
  have h : d % 10 < 10 := Nat.mod_lt d (by decide)
  unfold digitChar
  interval_cases d % 10 <;> decide

theorem parseDecimal_aux (fuel n : Nat) (h : n < fuel) :
    parseDecimal (decimalDigitsAux fuel n) = n := by
  induction fuel generalizing n with
  | zero => omega
  | succ fuel ih =>
    simp only [decimalDigitsAux]
    split_ifs with h10
    · simp only [parseDecimal, List.foldl_cons, List.foldl_nil, digitChar_toNat]
      omega
    · have := ih (n / 10) (by omega)
      unfold parseDecimal at this ⊢
      rw [List.foldl_append, this]
      simp only [List.foldl_cons, List.foldl_nil, digitChar_toNat]
      omega

theorem parseDecimal_decimalDigits (n : Nat) : parseDecimal (decimalDigits n) = n :=
  parseDecimal_aux (n + 1) n (by omega)

theorem displayResults_list (ui : UI) (results : List DecodeOutcome) :
    (displayResults ui (some results)).2 = none ∧
    (displayResults ui (some results)).1.resultsList =
      if results.length = 0 then
        [.elem "p".toList [("class".toList, "text-muted".toList)]
          [.text "No results found".toList]]
      else resultItemsFrom 0 results := by
  refine ⟨rfl, ?_⟩
  by_cases h : results.length = 0
  · rw [if_pos h, ← setInnerHTML_noResults]
    simp only [displayResults, showResults, if_pos h]
  · rw [if_neg h]
    simp only [displayResults, showResults, if_neg h, setInnerHTML_empty, List.nil_append]

theorem displayAnalysis_list (ui : UI) (data : Body) (analysis : AnalysisReport)
    (detections : List Detection) (ha : data.analysis = some analysis)
    (hd : data.detections = some detections) :
    (displayAnalysis ui data).2 = none ∧
    (displayAnalysis ui data).1.detectionsList =
      if detections.length = 0 then
        [.elem "p".toList [("class".toList, "text-muted".toList)]
          [.text "No encodings detected above threshold".toList]]
      else detections.map createDetectionItem := by
  by_cases h : detections.length = 0
  · rw [if_pos h, ← setInnerHTML_noDetections]
    simp only [displayAnalysis, ha, hd, showAnalysis, if_pos h, and_self]
  · rw [if_neg h]
    simp only [displayAnalysis, ha, hd, showAnalysis, if_neg h, setInnerHTML_empty,
      List.nil_append, and_self]

theorem querySelector_copyBtn (r : DecodeOutcome) (index : Nat) :
    (createResultItem r index).querySelector "copy-btn".toList =
      if r.success then some (copyButton index) else none := by
  rw [createResultItem_eq]
  simp only [Node.querySelector, Node.querySelectorAll, select_copyBtn]
  cases r.success <;> simp

theorem querySelector_resultText (r : DecodeOutcome) (index : Nat) :
    ((createResultItem r index).querySelector "result-text".toList).map Node.textContent =
      if r.success then some (domText r.result) else none := by
  rw [createResultItem_eq]
  simp only [Node.querySelector, Node.querySelectorAll, select_resultText]
  cases r.success <;> simp [Node.textContent, textContentOf_textNodes]

theorem copyResult_displayed (ui : UI) (results : List DecodeOutcome) (i : Nat)
    (r : DecodeOutcome) (h : results[i]? = some r) :
    copyResult (displayResults ui (some results)).1 i =
      if r.success then .writes (domText r.result) else .returns := by
  have hne : ¬ results.length = 0 := by
    intro e
    have : results = [] := List.length_eq_zero.1 e
    rw [this] at h; simp at h
  have hitem : (selectAllIn "result-item".toList
      (displayResults ui (some results)).1.resultsList)[i]? = some (createResultItem r i) := by
    rw [(displayResults_list ui results).2, if_neg hne, select_resultItems,
      resultItemsFrom_getElem?, h]
    simp
  have ht := querySelector_resultText r i
  unfold copyResult
  rw [hitem]
  simp only
  cases hq : (createResultItem r i).querySelector "result-text".toList with
  | none =>
    rw [hq] at ht
    cases hs : r.success with
    | true => rw [hs] at ht; simp at ht
    | false => simp
  | some node =>
    rw [hq] at ht
    cases hs : r.success with
    | true =>
      rw [hs] at ht
      simp only [Option.map_some', if_true, Option.some.injEq] at ht
      simp [ht]
    | false => rw [hs] at ht; simp at ht

theorem domText_of_clean (s : JsString) (h1 : CR ∉ s) (h2 : NUL ∉ s) : domText s = s := by
  unfold domText normalizeNewlines
  rw [norm_noCR false s h1 (Or.inl rfl), List.filter_eq_self]
  intro c hc
  have : c ≠ NUL := fun e => h2 (e ▸ hc)
  simpa using this

theorem gt_not_mem_escapeHtml (s : JsString) : '>' ∉ escapeHtml s := by
  induction s with
  | nil => simp [escapeHtml]
  | cons c s ih =>
    simp only [escapeHtml, List.mem_append, not_or]
    refine ⟨?_, ih⟩
    unfold escapeChar
    split_ifs with h1 h2 h3 h4
    · decide
    · decide
    · decide
    · decide
    · simpa using fun e => h4 e.symm

theorem peel_amp (c : Char) (l pre post : JsString) (hc : c ≠ '&')
    (h : c :: l = pre ++ '&' :: post) : ∃ pre2, pre = c :: pre2 ∧ l = pre2 ++ '&' :: post := by
  cases pre with
  | nil =>
    simp only [List.nil_append, List.cons.injEq] at h
    exact absurd h.1 hc
  | cons p pre2 =>
    simp only [List.cons_append, List.cons.injEq] at h
    exact ⟨pre2, by rw [h.1], h.2⟩

theorem amp_starts_entity (s : JsString) :
    ∀ pre post, escapeHtml s = pre ++ '&' :: post → ∃ e ∈ entityNames, e <+: post := by
  induction s with
  | nil =>
    intro pre post h
    simp [escapeHtml] at h
  | cons c s ih =>
    intro pre post h
    simp only [escapeHtml, escapeChar] at h
    split_ifs at h with h1 h2 h3 h4
    · cases pre with
      | nil =>
        have hp : post = "amp;".toList ++ escapeHtml s := by
          have := h
          simp only [List.nil_append] at this
          exact (List.cons.inj this).2.symm
        exact ⟨"amp;".toList, by simp [entityNames], by rw [hp]; exact List.prefix_append _ _⟩
      | cons p pre2 =>
        have h5 : 'a' :: 'm' :: 'p' :: ';' :: escapeHtml s = pre2 ++ '&' :: post :=
          (List.cons.inj h).2
        obtain ⟨q1, rfl, h6⟩ := peel_amp _ _ _ _ (by decide) h5
        obtain ⟨q2, rfl, h7⟩ := peel_amp _ _ _ _ (by decide) h6
        obtain ⟨q3, rfl, h8⟩ := peel_amp _ _ _ _ (by decide) h7
        obtain ⟨q4, rfl, h9⟩ := peel_amp _ _ _ _ (by decide) h8
        exact ih _ _ h9
    · cases pre with
      | nil =>
        have hp : post = "nbsp;".toList ++ escapeHtml s := by
          have := h
          simp only [List.nil_append] at this
          exact (List.cons.inj this).2.symm
        exact ⟨"nbsp;".toList, by simp [entityNames], by rw [hp]; exact List.prefix_append _ _⟩
      | cons p pre2 =>
        have h5 : 'n' :: 'b' :: 's' :: 'p' :: ';' :: escapeHtml s = pre2 ++ '&' :: post :=
          (List.cons.inj h).2
        obtain ⟨q1, rfl, h6⟩ := peel_amp _ _ _ _ (by decide) h5
        obtain ⟨q2, rfl, h7⟩ := peel_amp _ _ _ _ (by decide) h6
        obtain ⟨q3, rfl, h8⟩ := peel_amp _ _ _ _ (by decide) h7
        obtain ⟨q4, rfl, h9⟩ := peel_amp _ _ _ _ (by decide) h8
        obtain ⟨q5, rfl, h10⟩ := peel_amp _ _ _ _ (by decide) h9
        exact ih _ _ h10
    · cases pre with
      | nil =>
        have hp : post = "lt;".toList ++ escapeHtml s := by
          have := h
          simp only [List.nil_append] at this
          exact (List.cons.inj this).2.symm
        exact ⟨"lt;".toList, by simp [entityNames], by rw [hp]; exact List.prefix_append _ _⟩
      | cons p pre2 =>
        have h5 : 'l' :: 't' :: ';' :: escapeHtml s = pre2 ++ '&' :: post :=
          (List.cons.inj h).2
        obtain ⟨q1, rfl, h6⟩ := peel_amp _ _ _ _ (by decide) h5
        obtain ⟨q2, rfl, h7⟩ := peel_amp _ _ _ _ (by decide) h6
        obtain ⟨q3, rfl, h8⟩ := peel_amp _ _ _ _ (by decide) h7
        exact ih _ _ h8
    · cases pre with
      | nil =>
        have hp : post = "gt;".toList ++ escapeHtml s := by
          have := h
          simp only [List.nil_append] at this
          exact (List.cons.inj this).2.symm
        exact ⟨"gt;".toList, by simp [entityNames], by rw [hp]; exact List.prefix_append _ _⟩
      | cons p pre2 =>
        have h5 : 'g' :: 't' :: ';' :: escapeHtml s = pre2 ++ '&' :: post :=
          (List.cons.inj h).2
        obtain ⟨q1, rfl, h6⟩ := peel_amp _ _ _ _ (by decide) h5
        obtain ⟨q2, rfl, h7⟩ := peel_amp _ _ _ _ (by decide) h6
        obtain ⟨q3, rfl, h8⟩ := peel_amp _ _ _ _ (by decide) h7
        exact ih _ _ h8
    · obtain ⟨q1, rfl, h6⟩ := peel_amp c _ _ _ h1 h
      exact ih _ _ h6

theorem skeleton_detection (d : Detection) :
    (createDetectionItem d).skeleton =
      [.elem "div".toList [("class".toList, "detection-item".toList)]
        [ .elem "div".toList [("class".toList, "detection-info".toList)]
            [ .elem "h4".toList [] [], .elem "p".toList [] [] ],
          .elem "span".toList [("class".toList, "confidence-badge".toList)] [] ]] := by
  rw [createDetectionItem_eq]
  simp only [Node.skeleton, detectionChildren, skeletonOf_text, skeletonOf_elem,
    skeletonOf_textNodes, skeletonOf_nil]

theorem skeleton_result (r : DecodeOutcome) (index : Nat) :
    (createResultItem r index).skeleton =
      if r.success then
        [.elem "div".toList [("class".toList, "result-item ".toList)]
          [ .elem "div".toList [("class".toList, "result-header".toList)]
              [ .elem "span".toList [("class".toList, "result-decoder".toList)] [],
                .elem "span".toList [("class".toList, "result-confidence".toList)] [] ],
            .elem "div".toList [("class".toList, "result-content".toList)]
              [ .elem "div".toList [("class".toList, "result-text".toList)] [],
                .elem "button".toList
                  [ ("class".toList, "btn btn-secondary copy-btn".toList),
                    ("onclick".toList,
                      "app.copyResult(".toList ++ decimalDigits index ++ ")".toList) ] [] ] ]]
      else
        [.elem "div".toList [("class".toList, "result-item error".toList)]
          [ .elem "div".toList [("class".toList, "result-header".toList)]
              [ .elem "span".toList [("class".toList, "result-decoder".toList)] [],
                .elem "span".toList [("class".toList, "result-confidence error".toList)] [] ],
            .elem "div".toList [("class".toList, "result-content".toList)]
              [ .elem "div".toList [("class".toList, "result-error".toList)] [] ] ]] := by
  rw [createResultItem_eq]
  cases hs : r.success
  · simp only [Node.skeleton, resultChildren, hs, skeletonOf_text, skeletonOf_elem,
      skeletonOf_textNodes, skeletonOf_nil, if_false, Bool.false_eq_true]
    rfl
  · simp only [Node.skeleton, resultChildren, hs, skeletonOf_text, skeletonOf_elem,
      skeletonOf_textNodes, skeletonOf_nil, if_true, List.append_nil]

/-- C3. The markup of a detection item and of a result item is made of fixed
text, the escaped server strings and two numbers, so each server string occurs
only as `escapeHtml(field)`; the output of `escapeHtml` holds no `<`, no `>`,
and each `&` in it starts one of `&amp;`, `&nbsp;`, `&lt;`, `&gt;`; hence the
element structure of a rendered item (its elements with their attributes and
nesting) is the same for any two detections, and for any two outcomes with the
same success flag at the same position. -/
theorem server_text_is_escaped :
    (∃ a b c e : JsString, ∀ d : Detection,
      detectionMarkup d = a ++ escapeHtml d.name ++ b ++ escapeHtml d.description ++ c ++
        (confidencePercentage d.confidence).toJsString ++ e) ∧
    (∃ a b c e f : JsString, ∀ (r : DecodeOutcome) (i : Nat), r.success = true →
      resultMarkup r i = a ++ escapeHtml r.decoder ++ b ++
        (confidencePercentage r.confidence).toJsString ++ c ++ escapeHtml r.result ++ e ++
        decimalDigits i ++ f) ∧
    (∃ a b c e : JsString, ∀ (r : DecodeOutcome) (i : Nat), r.success = false →
      resultMarkup r i = a ++ escapeHtml r.decoder ++ b ++
        (confidencePercentage r.confidence).toJsString ++ c ++ escapeHtml r.error ++ e) ∧
    (∀ s : JsString, '<' ∉ escapeHtml s ∧ '>' ∉ escapeHtml s ∧
      ∀ pre post, escapeHtml s = pre ++ '&' :: post → ∃ e ∈ entityNames, e <+: post) ∧
    (∀ d d2 : Detection, (createDetectionItem d).skeleton = (createDetectionItem d2).skeleton) ∧
    (∀ (r r2 : DecodeOutcome) (i : Nat), r.success = r2.success →
      (createResultItem r i).skeleton = (createResultItem r2 i).skeleton) := by
  refine ⟨⟨_, _, _, _, fun d => rfl⟩,
    ⟨"\n                <div class=\"result-header\">\n                    <span class=\"result-decoder\">".toList,
      "</span>\n                    <span class=\"result-confidence\">".toList,
      "%</span>\n                </div>\n                <div class=\"result-content\">\n                    <div class=\"result-text\">".toList,
      "</div>\n                    <button class=\"btn btn-secondary copy-btn\" onclick=\"app.copyResult(".toList,
      ")\">\n                        Copy\n                    </button>\n                </div>\n            ".toList,
      fun r i h => ?_⟩,
    ⟨"\n                <div class=\"result-header\">\n                    <span class=\"result-decoder\">".toList,
      "</span>\n                    <span class=\"result-confidence error\">".toList,
      "%</span>\n                </div>\n                <div class=\"result-content\">\n                    <div class=\"result-error\">Error: ".toList,
      "</div>\n                </div>\n            ".toList,
      fun r i h => ?_⟩,
    fun s => ⟨lt_not_mem_escapeHtml s, gt_not_mem_escapeHtml s, amp_starts_entity s⟩,
    fun d d2 => ?_, fun r r2 i h => ?_⟩
  · unfold resultMarkup
    rw [if_pos h]
  · have hs : r.success ≠ true := by simp [h]
    unfold resultMarkup
    rw [if_neg hs]
  · rw [skeleton_detection, skeleton_detection]
  · rw [skeleton_result, skeleton_result, h]

/-- C4. `displayResults` on a list of M outcomes throws nothing and leaves
the results list with exactly the M result items, item `i` being
`createResultItem(results[i], i)`; an item holds a copy button exactly when
its outcome succeeded, and the button of item `i` has the handler
`app.copyResult(i)`, `i` in decimal digits; for the empty list the results
list holds the single placeholder paragraph and no result item. -/
theorem results_rendered (ui : UI) (results : List DecodeOutcome) :
    (displayResults ui (some results)).2 = none ∧
    selectAllIn "result-item".toList (displayResults ui (some results)).1.resultsList =
      resultItemsFrom 0 results ∧
    (resultItemsFrom 0 results).length = results.length ∧
    (∀ i : Nat, (resultItemsFrom 0 results)[i]? =
      (results[i]?).map (fun r => createResultItem r i)) ∧
    (∀ (r : DecodeOutcome) (i : Nat),
      ((createResultItem r i).querySelector "copy-btn".toList).isSome = r.success) ∧
    (∀ (r : DecodeOutcome) (i : Nat), r.success = true →
      ((createResultItem r i).querySelector "copy-btn".toList) = some (copyButton i) ∧
      getAttr [ ("class".toList, "btn btn-secondary copy-btn".toList),
          ("onclick".toList, "app.copyResult(".toList ++ decimalDigits i ++ ")".toList) ]
        "onclick".toList = some ("app.copyResult(".toList ++ decimalDigits i ++ ")".toList) ∧
      parseDecimal (decimalDigits i) = i) ∧
    (results.length ≠ 0 →
      (displayResults ui (some results)).1.resultsList = resultItemsFrom 0 results) ∧
    (results.length = 0 →
      (displayResults ui (some results)).1.resultsList =
        [.elem "p".toList [("class".toList, "text-muted".toList)]
          [.text "No results found".toList]]) := by
  have hl := displayResults_list ui results
  refine ⟨hl.1, ?_, resultItemsFrom_length 0 results, ?_, ?_, ?_, ?_, ?_⟩
  · rw [hl.2]
    by_cases h : results.length = 0
    · rw [if_pos h, List.length_eq_zero.1 h]
      simp +decide [selectAllIn_elem, selectAllIn_text, selectAllIn_nil, hasClass_single,
        resultItemsFrom]
    · rw [if_neg h, select_resultItems]
  · intro i
    rw [resultItemsFrom_getElem?]
    simp
  · intro r i
    rw [querySelector_copyBtn]
    cases r.success <;> rfl
  · intro r i h
    refine ⟨by rw [querySelector_copyBtn, if_pos h], ?_, parseDecimal_decimalDigits i⟩
    simp +decide [getAttr]
  · intro h
    rw [hl.2, if_neg h]
  · intro h
    rw [hl.2, if_pos h]

theorem roundHalfEven_intCast (z : ℤ) : roundHalfEven (z : ℚ) = z := by
  unfold roundHalfEven
  rw [if_pos]
  · exact Int.floor_intCast z
  · rw [Int.floor_intCast]; norm_num

theorem roundToDouble_natCast (n : ℕ) (h : n < 2 ^ 53) : roundToDouble (n : ℚ) = n := by
  rcases Nat.eq_zero_or_pos n with h0 | hpos
  · subst h0
    unfold roundToDouble
    have : roundHalfEven ((0 : ℕ) / 2 ^ ulpExponent ((0 : ℕ) : ℚ) : ℚ) = 0 := by
      have h1 : (((0 : ℕ) : ℚ) / 2 ^ ulpExponent ((0 : ℕ) : ℚ)) = ((0 : ℤ) : ℚ) := by simp
      rw [h1, roundHalfEven_intCast]
    rw [this]; simp
  · have hx : (0 : ℚ) < n := by exact_mod_cast hpos
    have h1 : (1 : ℚ) ≤ n := by exact_mod_cast hpos
    have hL0 : 0 ≤ Int.log 2 (n : ℚ) := by
      rw [Int.log_of_one_le_right 2 h1]; exact Int.natCast_nonneg _
    have hL1 : Int.log 2 (n : ℚ) < 53 := by
      rw [← Int.lt_zpow_iff_log_lt (by norm_num) hx]
      have : ((n : ℕ) : ℚ) < ((2 ^ 53 : ℕ) : ℚ) := by exact_mod_cast h
      rw [zpow_ofNat]
      exact_mod_cast h
    have hk : ulpExponent (n : ℚ) = Int.log 2 (n : ℚ) - 52 := by
      unfold ulpExponent
      rw [abs_of_pos hx]
      exact max_eq_left (by omega)
    obtain ⟨m, hm⟩ : ∃ m : ℕ, Int.log 2 (n : ℚ) - 52 = -(m : ℤ) :=
      ⟨(52 - Int.log 2 (n : ℚ)).toNat, by omega⟩
    unfold roundToDouble
    rw [hk, hm]
    have hdiv : (n : ℚ) / 2 ^ (-(m : ℤ)) = ((n * 2 ^ m : ℤ) : ℚ) := by
      push_cast
      rw [zpow_neg, zpow_natCast, div_inv_eq_mul]
    rw [hdiv, roundHalfEven_intCast]
    push_cast
    rw [zpow_neg, zpow_natCast, mul_assoc, mul_inv_cancel₀ (by positivity), mul_one]

theorem digitCandidate_exact (x nd k : Nat)
    (h : (x / 10 ^ (nd - k) + 1) * 10 ^ (nd - k) < 2 ^ 53) :
    digitCandidate x nd k = digitCandidateExact x nd k := by
  have hlo : x / 10 ^ (nd - k) * 10 ^ (nd - k) < 2 ^ 53 :=
    lt_of_le_of_lt (Nat.mul_le_mul_right _ (Nat.le_succ _)) h
  unfold digitCandidate digitCandidateExact
  simp only [roundToDouble_natCast _ hlo, roundToDouble_natCast _ h, Nat.cast_inj]

theorem findSome?_congr {α β : Type} (l : List α) (f g : α → Option β)
    (h : ∀ a ∈ l, f a = g a) : l.findSome? f = l.findSome? g := by
  induction l with
  | nil => rfl
  | cons a l ih =>
    simp only [List.findSome?_cons, h a (by simp)]
    rw [ih (fun b hb => h b (by simp [hb]))]

theorem digits_length_small : ∀ x ∈ List.range 101, (decimalDigits x).length ≤ 3 := by
  decide

theorem positiveToStringExact_small :
    ∀ x ∈ List.range 101, x ≠ 0 → positiveToStringExact x = decimalDigits x := by
  decide

theorem positiveToString_small (x : Nat) (h : x ≤ 100) (h0 : x ≠ 0) :
    positiveToString x = decimalDigits x := by
  have hmem : x ∈ List.range 101 := List.mem_range.2 (by omega)
  have hnd := digits_length_small x hmem
  rw [← positiveToStringExact_small x hmem h0]
  unfold positiveToString positiveToStringExact shortestDigits
  have hc : ∀ i ∈ List.range (decimalDigits x).length,
      (digitCandidate x (decimalDigits x).length (i + 1)).map (fun ns => (ns.1, i + 1, ns.2)) =
      (digitCandidateExact x (decimalDigits x).length (i + 1)).map
        (fun ns => (ns.1, i + 1, ns.2)) := by
    intro i hi
    rw [digitCandidate_exact]
    have hp : 10 ^ ((decimalDigits x).length - (i + 1)) ≤ 10 ^ 3 :=
      Nat.pow_le_pow_right (by norm_num) (by omega)
    have hpos : 0 < 10 ^ ((decimalDigits x).length - (i + 1)) := Nat.pow_pos (by norm_num)
    have hdm := Nat.div_mul_le_self x (10 ^ ((decimalDigits x).length - (i + 1)))
    calc (x / 10 ^ ((decimalDigits x).length - (i + 1)) + 1) *
          10 ^ ((decimalDigits x).length - (i + 1))
        = x / 10 ^ ((decimalDigits x).length - (i + 1)) *
            10 ^ ((decimalDigits x).length - (i + 1)) +
          10 ^ ((decimalDigits x).length - (i + 1)) := by ring
      _ ≤ 100 + 10 ^ 3 := by omega
      _ < 2 ^ 53 := by norm_num
  simp only []
  rw [findSome?_congr _ _ _ hc]

/-- Integers from 0 to 100 are printed in plain decimal digits. -/
theorem toJsString_small (n : Nat) (h : n ≤ 100) :
    (JsIntegral.int (n : ℤ)).toJsString = decimalDigits n := by
  cases n with
  | zero => rfl
  | succ n =>
    show positiveToString (n + 1) = decimalDigits (n + 1)
    exact positiveToString_small (n + 1) h (by omega)

theorem querySelector_badge (d : Detection) :
    ((createDetectionItem d).querySelector "confidence-badge".toList).map Node.textContent =
      some ((confidencePercentage d.confidence).toJsString ++ "%".toList) := by
  rw [createDetectionItem_eq]
  simp only [Node.querySelector, Node.querySelectorAll, select_badge]
  simp [Node.textContent, textContentOf]

theorem roundHalfEven_near (y : ℚ) : |(roundHalfEven y : ℚ) - y| ≤ 1 / 2 := by
  have h1 := Int.floor_le y
  have h2 := Int.lt_floor_add_one y
  unfold roundHalfEven
  rw [abs_le]
  split_ifs with ha hb hc <;> push_cast <;> constructor <;> linarith

theorem roundToDouble_error (x : ℚ) (h0 : 0 ≤ x) (h1 : x ≤ 100) :
    |roundToDouble x - x| ≤ 1 / 2 ^ 47 := by
  obtain ⟨hk1, hk2⟩ := ulpExponent_bounds x h0 h1
  unfold roundToDouble
  generalize ulpExponent x = k at hk1 hk2
  have hpos : (0 : ℚ) < 2 ^ k := by positivity
  have hnear := roundHalfEven_near (x / 2 ^ k)
  have hle : (2 : ℚ) ^ k ≤ 2 ^ (-46 : ℤ) := zpow_le_zpow_right₀ (by norm_num) hk2
  have hx : x = x / 2 ^ k * 2 ^ k := by field_simp
  have : (roundHalfEven (x / 2 ^ k) : ℚ) * 2 ^ k - x =
      ((roundHalfEven (x / 2 ^ k) : ℚ) - x / 2 ^ k) * 2 ^ k := by
    rw [sub_mul, ← hx]
  rw [this, abs_mul, abs_of_pos hpos]
  calc |(roundHalfEven (x / 2 ^ k) : ℚ) - x / 2 ^ k| * 2 ^ k
      ≤ 1 / 2 * 2 ^ (-46 : ℤ) := mul_le_mul hnear hle hpos.le (by norm_num)
    _ = 1 / 2 ^ 47 := by norm_num

theorem confidencePercentage_unfold (c : ℚ) :
    confidencePercentage c =
      if overflowBound ≤ roundToDouble (c * 100) then JsIntegral.posInf
      else if overflowBound ≤ -roundToDouble (c * 100) then JsIntegral.negInf
      else JsIntegral.int ⌊roundToDouble (c * 100) + 1 / 2⌋ := by
  unfold confidencePercentage jsMul
  split_ifs <;> rfl

theorem confidencePercentage_unit (c : ℚ) (h0 : 0 ≤ c) (h1 : c ≤ 1) :
    ∃ n : ℕ, n ≤ 100 ∧ (n : ℤ) = ⌊roundToDouble (c * 100) + 1 / 2⌋ ∧
      |roundToDouble (c * 100) - c * 100| ≤ 1 / 2 ^ 47 ∧
      (n : ℚ) - 1 / 2 - 1 / 2 ^ 47 ≤ c * 100 ∧ c * 100 < n + 1 / 2 + 1 / 2 ^ 47 ∧
      confidencePercentage c = .int n := by
  obtain ⟨hr0, hr1⟩ := roundToDouble_range (c * 100) (by linarith) (by linarith)
  have herr := roundToDouble_error (c * 100) (by linarith) (by linarith)
  have hf0 : 0 ≤ ⌊roundToDouble (c * 100) + 1 / 2⌋ := Int.floor_nonneg.2 (by linarith)
  have hf1 : ⌊roundToDouble (c * 100) + 1 / 2⌋ ≤ 100 := by
    have : ⌊roundToDouble (c * 100) + 1 / 2⌋ < 101 := by
      rw [Int.floor_lt]; push_cast; linarith
    omega
  have hn : ((⌊roundToDouble (c * 100) + 1 / 2⌋.toNat : ℕ) : ℤ) =
      ⌊roundToDouble (c * 100) + 1 / 2⌋ := Int.toNat_of_nonneg hf0
  have hq : ((⌊roundToDouble (c * 100) + 1 / 2⌋.toNat : ℕ) : ℚ) =
      ((⌊roundToDouble (c * 100) + 1 / 2⌋ : ℤ) : ℚ) := by
    exact_mod_cast congrArg (fun z : ℤ => (z : ℚ)) hn
  have hfl := Int.floor_le (roundToDouble (c * 100) + 1 / 2)
  have hfu := Int.lt_floor_add_one (roundToDouble (c * 100) + 1 / 2)
  rw [abs_le] at herr
  refine ⟨⌊roundToDouble (c * 100) + 1 / 2⌋.toNat, by omega, hn, abs_le.2 herr, ?_, ?_, ?_⟩
  · rw [hq]; linarith
  · rw [hq]; linarith
  · unfold confidencePercentage
    rw [jsMul_of_range c 100 hr0 hr1]
    simp only [mathRound]
    rw [hn]



theorem roundToDouble_of_bits (x : ℚ) (m : ℕ) (hlo : (2 : ℚ) ^ (m + 52) ≤ x)
    (hhi : x < 2 ^ (m + 53)) :
    roundToDouble x = roundHalfEven (x / 2 ^ m) * 2 ^ m := by
  have hx : 0 < x := lt_of_lt_of_le (by positivity) hlo
  have h1 : ((m + 52 : ℕ) : ℤ) ≤ Int.log 2 x := by
    rw [← Int.zpow_le_iff_le_log (by norm_num) hx]
    rw [zpow_natCast]; exact_mod_cast hlo
  have h2 : Int.log 2 x < ((m + 53 : ℕ) : ℤ) := by
    rw [← Int.lt_zpow_iff_log_lt (by norm_num) hx]
    rw [zpow_natCast]; exact_mod_cast hhi
  have hk : ulpExponent x = (m : ℤ) := by
    unfold ulpExponent
    rw [abs_of_pos hx]
    push_cast at h1 h2
    rw [max_eq_left (by omega)]
    omega
  unfold roundToDouble
  rw [hk, zpow_natCast]

theorem roundToDouble_1e23 :
    roundToDouble 100000000000000000000000 = 99999999999999991611392 := by
  rw [roundToDouble_of_bits _ 24 (by norm_num) (by norm_num)]
  have hfl : ⌊(100000000000000000000000 / 2 ^ 24 : ℚ)⌋ = 5960464477539062 := by
    rw [Int.floor_eq_iff]; constructor <;> norm_num
  unfold roundHalfEven
  rw [hfl]
  norm_num

theorem roundToDouble_9e22 :
    roundToDouble 90000000000000000000000 = 89999999999999995805696 := by
  rw [roundToDouble_of_bits _ 24 (by norm_num) (by norm_num)]
  have hfl : ⌊(90000000000000000000000 / 2 ^ 24 : ℚ)⌋ = 5364418029785156 := by
    rw [Int.floor_eq_iff]; constructor <;> norm_num
  unfold roundHalfEven
  rw [hfl]
  norm_num

theorem confidencePercentage_1e21 :
    confidencePercentage 1000000000000000000000 = .int 99999999999999991611392 := by
  have hp : (1000000000000000000000 * 100 : ℚ) = 100000000000000000000000 := by norm_num
  unfold confidencePercentage jsMul
  rw [hp, roundToDouble_1e23]
  have hA : ¬ overflowBound ≤ (99999999999999991611392 : ℚ) := by
    unfold overflowBound; norm_num
  have hB : ¬ overflowBound ≤ -(99999999999999991611392 : ℚ) := by
    unfold overflowBound; norm_num
  rw [if_neg hA, if_neg hB]
  simp only [mathRound]
  congr 1
  rw [Int.floor_eq_iff]; constructor <;> norm_num

theorem digitCandidate_1e23 :
    digitCandidate 99999999999999991611392 23 1 = some (24, 1) := by
  unfold digitCandidate
  simp only [Nat.reducePow, Nat.reduceDiv, Nat.reduceMul, Nat.reduceSub, Nat.reduceAdd]
  simp [roundToDouble_9e22, roundToDouble_1e23]

theorem decimalDigitsAux_fuel (fuel fuel2 n : Nat) (h : n < fuel) (h2 : n < fuel2) :
    decimalDigitsAux fuel n = decimalDigitsAux fuel2 n := by
  induction fuel generalizing fuel2 n with
  | zero => omega
  | succ fuel ih =>
    cases fuel2 with
    | zero => omega
    | succ fuel2 =>
      simp only [decimalDigitsAux]
      split_ifs with hn
      · rfl
      · rw [ih fuel2 (n / 10) (by omega) (by omega)]

theorem decimalDigits_step (n : Nat) (h : 10 ≤ n) :
    decimalDigits n = decimalDigits (n / 10) ++ [digitChar n] := by
  unfold decimalDigits
  rw [decimalDigitsAux, if_neg (by omega)]
  rw [decimalDigitsAux_fuel n (n / 10 + 1) (n / 10) (by omega) (by omega)]

theorem decimalDigits_1e23 :
    decimalDigits 99999999999999991611392 = "99999999999999991611392".toList := by
  rw [decimalDigits_step 99999999999999991611392 (by norm_num)]
  simp only [Nat.reduceDiv]
  rw [decimalDigits_step 9999999999999999161139 (by norm_num)]
  simp only [Nat.reduceDiv]
  rw [decimalDigits_step 999999999999999916113 (by norm_num)]
  simp only [Nat.reduceDiv]
  rw [decimalDigits_step 99999999999999991611 (by norm_num)]
  simp only [Nat.reduceDiv]
  rw [decimalDigits_step 9999999999999999161 (by norm_num)]
  simp only [Nat.reduceDiv]
  rw [decimalDigits_step 999999999999999916 (by norm_num)]
  simp only [Nat.reduceDiv]
  rw [decimalDigits_step 99999999999999991 (by norm_num)]
  simp only [Nat.reduceDiv]
  rw [decimalDigits_step 9999999999999999 (by norm_num)]
  simp only [Nat.reduceDiv]
  rw [decimalDigits_step 999999999999999 (by norm_num)]
  simp only [Nat.reduceDiv]
  rw [decimalDigits_step 99999999999999 (by norm_num)]
  simp only [Nat.reduceDiv]
  rw [decimalDigits_step 9999999999999 (by norm_num)]
  simp only [Nat.reduceDiv]
  rw [decimalDigits_step 999999999999 (by norm_num)]
  simp only [Nat.reduceDiv]
  rw [decimalDigits_step 99999999999 (by norm_num)]
  simp only [Nat.reduceDiv]
  rw [decimalDigits_step 9999999999 (by norm_num)]
  simp only [Nat.reduceDiv]
  rw [decimalDigits_step 999999999 (by norm_num)]
  simp only [Nat.reduceDiv]
  rw [decimalDigits_step 99999999 (by norm_num)]
  simp only [Nat.reduceDiv]
  rw [decimalDigits_step 9999999 (by norm_num)]
  simp only [Nat.reduceDiv]
  rw [decimalDigits_step 999999 (by norm_num)]
  simp only [Nat.reduceDiv]
  rw [decimalDigits_step 99999 (by norm_num)]
  simp only [Nat.reduceDiv]
  rw [decimalDigits_step 9999 (by norm_num)]
  simp only [Nat.reduceDiv]
  rw [decimalDigits_step 999 (by norm_num)]
  simp only [Nat.reduceDiv]
  rw [decimalDigits_step 99 (by norm_num)]
  simp only [Nat.reduceDiv]
  simp only [digitChar, Nat.reduceMod, Nat.reduceAdd]
  decide

theorem length_1e23 : (decimalDigits 99999999999999991611392).length = 23 := by
  rw [decimalDigits_1e23]; rfl

theorem shortestDigits_first (x nd : Nat) (c : Nat × Nat) (hnd : 0 < nd)
    (h : digitCandidate x nd 1 = some c) : shortestDigits x nd = (c.1, 1, c.2) := by
  obtain ⟨m, rfl⟩ : ∃ m, nd = m + 1 := ⟨nd - 1, by omega⟩
  unfold shortestDigits
  rw [List.range_succ_eq_map, List.findSome?_cons]
  simp only [Nat.zero_add, h, Option.map_some', Option.getD_some]

theorem shortest_1e23 : shortestDigits 99999999999999991611392 23 = (24, 1, 1) :=
  shortestDigits_first _ 23 (24, 1) (by norm_num) digitCandidate_1e23

theorem small_digits : decimalDigits 1 ++ ['e', '+'] ++ decimalDigits 23 = ['1', 'e', '+', '2', '3'] := by
  decide

theorem positiveToString_1e23 :
    positiveToString 99999999999999991611392 = "1e+23".toList := by
  unfold positiveToString
  rw [length_1e23, shortest_1e23]
  simp only [Nat.reduceLeDiff, if_false, if_true, Nat.reduceSub]
  exact small_digits

theorem toJsString_pos (n : Nat) (h : n ≠ 0) :
    (JsIntegral.int (n : ℤ)).toJsString = positiveToString n := by
  cases n with
  | zero => exact absurd rfl h
  | succ n => rfl

theorem percent_1e21 :
    (confidencePercentage 1000000000000000000000).toJsString ++ "%".toList =
      "1e+23%".toList := by
  rw [confidencePercentage_1e21]
  have h := toJsString_pos 99999999999999991611392 (by norm_num)
  rw [Nat.cast_ofNat] at h
  rw [h, positiveToString_1e23]
  rfl

/-- C5, as amended. `displayAnalysis` on a response with N detections throws
nothing and leaves the detections list with exactly the N detection items, in
response order. The confidence badge of an item reads
`Math.round(confidence * 100)` as binary64 arithmetic computes it, followed by
`%`: the exact product is rounded to the nearest binary64 number (ties to
even), an overflow gives `Infinity` or `-Infinity`, the result is rounded to
the nearest integer (ties towards positive infinity) and printed by
`Number::toString`. For a confidence `c` in `[0, 1]` the badge is the plain
decimal digits of an integer `n` from 0 to 100, where `n` is the floor of the
rounded product plus one half, the rounded product is within `2 ^ (-47)` of
`c * 100`, and so `n - 1/2 - 2 ^ (-47) ≤ c * 100 < n + 1/2 + 2 ^ (-47)`. For an
empty list the detections list holds the single placeholder paragraph and no
detection item. -/
theorem detections_rendered (ui : UI) (data : Body) (analysis : AnalysisReport)
    (detections : List Detection) (ha : data.analysis = some analysis)
    (hd : data.detections = some detections) :
    (displayAnalysis ui data).2 = none ∧
    selectAllIn "detection-item".toList (displayAnalysis ui data).1.detectionsList =
      detections.map createDetectionItem ∧
    (detections.map createDetectionItem).length = detections.length ∧
    (∀ i : Nat, (detections.map createDetectionItem)[i]? =
      (detections[i]?).map createDetectionItem) ∧
    (∀ d : Detection,
      ((createDetectionItem d).querySelector "confidence-badge".toList).map Node.textContent =
        some ((if overflowBound ≤ roundToDouble (d.confidence * 100) then JsIntegral.posInf
          else if overflowBound ≤ -roundToDouble (d.confidence * 100) then JsIntegral.negInf
          else JsIntegral.int ⌊roundToDouble (d.confidence * 100) + 1 / 2⌋).toJsString ++
          "%".toList)) ∧
    (∀ d : Detection, 0 ≤ d.confidence → d.confidence ≤ 1 →
      ∃ n : ℕ, n ≤ 100 ∧
        (n : ℤ) = ⌊roundToDouble (d.confidence * 100) + 1 / 2⌋ ∧
        |roundToDouble (d.confidence * 100) - d.confidence * 100| ≤ 1 / 2 ^ 47 ∧
        (n : ℚ) - 1 / 2 - 1 / 2 ^ 47 ≤ d.confidence * 100 ∧
        d.confidence * 100 < n + 1 / 2 + 1 / 2 ^ 47 ∧
        ((createDetectionItem d).querySelector "confidence-badge".toList).map Node.textContent =
          some (decimalDigits n ++ "%".toList)) ∧
    (detections.length ≠ 0 →
      (displayAnalysis ui data).1.detectionsList = detections.map createDetectionItem) ∧
    (detections.length = 0 →
      (displayAnalysis ui data).1.detectionsList =
        [.elem "p".toList [("class".toList, "text-muted".toList)]
          [.text "No encodings detected above threshold".toList]]) := by
  have hl := displayAnalysis_list ui data analysis detections ha hd
  refine ⟨hl.1, ?_, by simp, ?_, ?_, ?_, ?_, ?_⟩
  · rw [hl.2]
    by_cases h : detections.length = 0
    · rw [if_pos h, List.length_eq_zero.1 h]
      simp +decide [selectAllIn_elem, selectAllIn_text, selectAllIn_nil, hasClass_single]
    · rw [if_neg h, select_detectionItems]
  · intro i
    simp
  · intro d
    rw [querySelector_badge, confidencePercentage_unfold]
  · intro d h0 h1
    obtain ⟨n, hn, hfl, herr, hlo, hhi, hc⟩ := confidencePercentage_unit d.confidence h0 h1
    refine ⟨n, hn, hfl, herr, hlo, hhi, ?_⟩
    rw [querySelector_badge, hc, toJsString_small n hn]
  · intro h
    rw [hl.2, if_neg h]
  · intro h
    rw [hl.2, if_pos h]

/-- Witness of C5: a response with one detection whose confidence is the
binary64 number nearest to 0.95: one detection item, whose badge reads `95%`;
and the badge of a detection of confidence `1e21` reads `1e+23%`. -/
theorem detections_rendered_witness :
    (Body.mk none (some ⟨"8".toList, [], "2.75".toList, []⟩)
        (some [⟨"Base64".toList, "Base64 encoding".toList,
          4278419646001971 / 4503599627370496⟩]) none).analysis =
      some ⟨"8".toList, [], "2.75".toList, []⟩ ∧
    selectAllIn "detection-item".toList
      (displayAnalysis (UI.idle "SGVsbG8=".toList)
        (Body.mk none (some ⟨"8".toList, [], "2.75".toList, []⟩)
        (some [⟨"Base64".toList, "Base64 encoding".toList,
          4278419646001971 / 4503599627370496⟩]) none)).1.detectionsList =
      [⟨"Base64".toList, "Base64 encoding".toList,
        4278419646001971 / 4503599627370496⟩].map createDetectionItem ∧
    ((createDetectionItem ⟨"Base64".toList, "Base64 encoding".toList,
        4278419646001971 / 4503599627370496⟩).querySelector
        "confidence-badge".toList).map Node.textContent = some "95%".toList ∧
    ((createDetectionItem ⟨"Base64".toList, "Base64 encoding".toList,
        1000000000000000000000⟩).querySelector
        "confidence-badge".toList).map Node.textContent = some "1e+23%".toList :=
  ⟨rfl,
   (detections_rendered (UI.idle "SGVsbG8=".toList)
      (Body.mk none (some ⟨"8".toList, [], "2.75".toList, []⟩)
        (some [⟨"Base64".toList, "Base64 encoding".toList,
          4278419646001971 / 4503599627370496⟩]) none)
      ⟨"8".toList, [], "2.75".toList, []⟩
      [⟨"Base64".toList, "Base64 encoding".toList, 4278419646001971 / 4503599627370496⟩]
      rfl rfl).2.1,
   ((detections_rendered (UI.idle "SGVsbG8=".toList)
      (Body.mk none (some ⟨"8".toList, [], "2.75".toList, []⟩)
        (some [⟨"Base64".toList, "Base64 encoding".toList,
          4278419646001971 / 4503599627370496⟩]) none)
      ⟨"8".toList, [], "2.75".toList, []⟩
      [⟨"Base64".toList, "Base64 encoding".toList, 4278419646001971 / 4503599627370496⟩]
      rfl rfl).2.2.2.2.1
      ⟨"Base64".toList, "Base64 encoding".toList, 4278419646001971 / 4503599627370496⟩).trans
     (congrArg some (by decide!)),
   ((detections_rendered (UI.idle "SGVsbG8=".toList)
      (Body.mk none (some ⟨"8".toList, [], "2.75".toList, []⟩)
        (some [⟨"Base64".toList, "Base64 encoding".toList,
          4278419646001971 / 4503599627370496⟩]) none)
      ⟨"8".toList, [], "2.75".toList, []⟩
      [⟨"Base64".toList, "Base64 encoding".toList, 4278419646001971 / 4503599627370496⟩]
      rfl rfl).2.2.2.2.1
      ⟨"Base64".toList, "Base64 encoding".toList, 1000000000000000000000⟩).trans
     (congrArg some ((congrArg (fun x : JsIntegral => x.toJsString ++ "%".toList)
       (confidencePercentage_unfold 1000000000000000000000).symm).trans percent_1e21))⟩

/-- C5 as stated fails when `round(confidence * 100)` is read as the rounding
of the product: for the binary64 number nearest to 0.995, the product with 100
lies in `[99, 99.5)` and rounds to 99 under every tie rule, but the binary64
product is 99.5 and the badge reads `100%`. -/
theorem badge_rounds_binary64_product :
    (99 : ℚ) ≤ 8962163258467287 / 9007199254740992 * 100 ∧
    (8962163258467287 / 9007199254740992 * 100 : ℚ) < 99 + 1 / 2 ∧
    round (8962163258467287 / 9007199254740992 * 100 : ℚ) = 99 ∧
    ((createDetectionItem ⟨"Base64".toList, "Base64 encoding".toList,
        8962163258467287 / 9007199254740992⟩).querySelector
        "confidence-badge".toList).map Node.textContent = some "100%".toList := by
  refine ⟨by norm_num, by norm_num, ?_, ?_⟩
  · rw [round_eq, Int.floor_eq_iff]
    constructor <;> norm_num
  · rw [querySelector_badge]
    exact congrArg some (by decide!)

/-- C9, as amended. After `displayResults`, for an index `i` within the list:
when outcome `i` succeeded, `copyResult(i)` hands to the clipboard the text
content of the `.result-text` element of item `i`, which is the outcome's
`result` with each CR LF pair and each lone CR replaced by LF and each NUL
removed, hence `result` itself when it holds neither CR nor NUL (failed
outcomes before `i` do not shift the index); when outcome `i` failed,
`copyResult(i)` returns without writing. -/
theorem copy_writes_displayed_text (ui : UI) (results : List DecodeOutcome) (i : Nat)
    (r : DecodeOutcome) (h : results[i]? = some r) :
    (r.success = true →
      copyResult (displayResults ui (some results)).1 i = .writes (domText r.result) ∧
      (CR ∉ r.result → NUL ∉ r.result →
        copyResult (displayResults ui (some results)).1 i = .writes r.result)) ∧
    (r.success = false → copyResult (displayResults ui (some results)).1 i = .returns) := by
  have hc := copyResult_displayed ui results i r h
  refine ⟨fun hs => ?_, fun hs => ?_⟩
  · rw [hs, if_pos rfl] at hc
    refine ⟨hc, fun h1 h2 => ?_⟩
    rw [hc, domText_of_clean _ h1 h2]
  · rw [hs] at hc
    exact hc

/-- Witness of C9 as amended: the outcome `base64`, `Hello`, after a failed
outcome. -/
theorem copy_writes_displayed_text_witness :
    [DecodeOutcome.mk "hex".toList false 0 [] "odd length".toList,
      DecodeOutcome.mk "base64".toList true (19 / 20) "Hello".toList []][1]? =
      some (DecodeOutcome.mk "base64".toList true (19 / 20) "Hello".toList []) ∧
    copyResult (displayResults (UI.idle "SGVsbG8=".toList)
      (some [DecodeOutcome.mk "hex".toList false 0 [] "odd length".toList,
        DecodeOutcome.mk "base64".toList true (19 / 20) "Hello".toList []])).1 1 =
      .writes "Hello".toList :=
  ⟨rfl,
   ((copy_writes_displayed_text (UI.idle "SGVsbG8=".toList)
      [DecodeOutcome.mk "hex".toList false 0 [] "odd length".toList,
        DecodeOutcome.mk "base64".toList true (19 / 20) "Hello".toList []] 1
      (DecodeOutcome.mk "base64".toList true (19 / 20) "Hello".toList []) rfl).1 rfl).2
      (by decide) (by decide)⟩

/-- C9 as stated fails when the decoded text holds a carriage return: for the
result `a`, CR, LF, `b` the clipboard receives `a`, LF, `b`. -/
theorem copy_loses_carriage_return :
    copyResult (displayResults (UI.idle "YQ0KYg==".toList)
      (some [DecodeOutcome.mk "base64".toList true (19 / 20) ['a', CR, LF, 'b'] []])).1 0 =
      .writes ['a', LF, 'b'] ∧
    ['a', LF, 'b'] ≠ ['a', CR, LF, 'b'] := by
  refine ⟨?_, by decide⟩
  rw [copyResult_displayed (UI.idle "YQ0KYg==".toList)
    [DecodeOutcome.mk "base64".toList true (19 / 20) ['a', CR, LF, 'b'] []] 0
    (DecodeOutcome.mk "base64".toList true (19 / 20) ['a', CR, LF, 'b'] []) rfl]
  have hd : domText ['a', CR, LF, 'b'] = ['a', LF, 'b'] := by decide
  simp only [if_true, hd]

end DecryptionToolkit
